import Mathlib

/-!
Verification development for the Google-Sheets sales-aggregation pipeline
(`src/api/googleSheets.ts` and related modules).

The TypeScript source is shallowly embedded: JavaScript strings are Lean
`String`s manipulated through their character lists, JavaScript numbers that
the pipeline produces are modelled as exact integers (`Int`), calendar dates
are modelled as epoch-day numbers (`Int`), a JavaScript `Date` object is
modelled as `Option Int` (`none` is an Invalid Date, whose `getTime()` is
NaN), and a thrown exception is modelled with `Except String`.

Model boundaries (stated once here, referenced in doc comments below):
* `Char.toLower` / `Char.toUpper` fold only ASCII letters, while JavaScript
  `toLowerCase` / `toUpperCase` are Unicode aware; every property proved below
  is insensitive to this difference.
* The JavaScript `Date` string constructor is modelled on the ECMAScript
  date-time string format restricted to its date-only form `YYYY-MM-DD`
  (the only form the pipeline itself constructs); implementation-specific
  heuristic input formats are modelled as Invalid Date.
* Network retrieval is modelled by outcome records: each endpoint either
  returns a body or an HTTP status (rendered as a string), matching the
  status-based failure paths of the source.
-/

/-- The whitespace test used for JavaScript `trim` and `\s`, on the ASCII
whitespace characters. -/
def isJsSpace (c : Char) : Bool :=
  c = ' ' || c = '\t' || c = '\n' || c = '\r' || c = '\x0b' || c = '\x0c'

/-- Characters of a string after JavaScript `trim`: leading and trailing
whitespace removed. -/
def trimChars (cs : List Char) : List Char :=
  ((cs.dropWhile isJsSpace).reverse.dropWhile isJsSpace).reverse

/-- JavaScript `String.prototype.trim`. -/
def jsTrim (s : String) : String :=
  ⟨trimChars s.data⟩

/-- Auxiliary loop for splitting a character list at a separator character. -/
def splitCharAux (sep : Char) : List Char → List Char → List String
  | [], cur => [⟨cur⟩]
  | c :: rest, cur =>
    if c = sep then ⟨cur⟩ :: splitCharAux sep rest []
    else splitCharAux sep rest (cur ++ [c])

/-- JavaScript `String.prototype.split` with a single-character separator:
`"".split(sep) = [""]`, separators are not collapsed. -/
def jsSplit (sep : Char) (s : String) : List String :=
  splitCharAux sep s.data []

/-- Lowercasing of every character (JavaScript `toLowerCase`, ASCII part). -/
def jsToLower (s : String) : String :=
  ⟨s.data.map Char.toLower⟩

/-- Uppercasing of every character (JavaScript `toUpperCase`, ASCII part). -/
def jsToUpper (s : String) : String :=
  ⟨s.data.map Char.toUpper⟩

/-- Does `hay` contain `pat` as a contiguous factor?  Backs the model of
JavaScript `String.prototype.includes`. -/
def listContains (pat : List Char) : List Char → Bool
  | [] => pat.isEmpty
  | c :: t => pat.isPrefixOf (c :: t) || listContains pat t

/-- JavaScript `hay.includes(pat)`. -/
def jsIncludes (hay pat : String) : Bool :=
  listContains pat.data hay.data

/-- Numeric value of a list of decimal digit characters. -/
def digitsToNat (ds : List Char) : Nat :=
  ds.foldl (fun acc c => acc * 10 + (c.toNat - '0'.toNat)) 0

/-- The longest decimal-digit prefix of a character list, as a number;
`none` when the list does not start with a digit. -/
def digitsPrefixVal (cs : List Char) : Option Nat :=
  let ds := cs.takeWhile Char.isDigit
  if ds.isEmpty then none else some (digitsToNat ds)

/-- JavaScript `parseInt(s, 10)`: skip leading whitespace, an optional sign,
then the longest digit prefix; `none` models `NaN`. -/
def jsParseInt (s : String) : Option Int :=
  let cs := s.data.dropWhile isJsSpace
  match cs with
  | '-' :: rest => (digitsPrefixVal rest).map (fun n => -(n : Int))
  | '+' :: rest => (digitsPrefixVal rest).map (fun n => (n : Int))
  | _ => (digitsPrefixVal cs).map (fun n => (n : Int))

/-- The combined effect of `value.replace(/\s+/g, "").replace(/[^\d-]/g, "")`
from `safeParseInt` (googleSheets.ts lines 385-392): only decimal digits and
minus signs survive. -/
def stripToDigitsMinus (s : String) : String :=
  ⟨s.data.filter (fun c => c.isDigit || c = '-')⟩

/-- `safeParseInt` of googleSheets.ts lines 385-392 (also part_001 lines
422-429): empty input gives 0, the input is stripped to digits and minus
signs, the remainder is parsed with `parseInt(·, 10)`, and a `NaN` outcome
gives 0. -/
def safeParseInt (value : String) : Int :=
  if value = "" then 0
  else
    let cleaned := stripToDigitsMinus value
    if cleaned = "" then 0
    else
      match jsParseInt cleaned with
      | some n => n
      | none => 0

/-- `safeParseInt` of googleSheets.ts lines 740-744 (the proxy-based variant
of the service): no stripping at all, the raw value goes straight to
`parseInt(value, 10)` and a `NaN` outcome gives 0. -/
def safeParseIntV2 (value : String) : Int :=
  if value = "" then 0
  else
    match jsParseInt value with
    | some n => n
    | none => 0

/-- Gregorian leap-year test. -/
def isLeap (y : Nat) : Bool :=
  (y % 4 = 0 && y % 100 ≠ 0) || y % 400 = 0

/-- Length of a month in a non-leap year (0 for an out-of-range month). -/
def monthDays (m : Nat) : Nat :=
  match m with
  | 1 => 31 | 2 => 28 | 3 => 31 | 4 => 30 | 5 => 31 | 6 => 30
  | 7 => 31 | 8 => 31 | 9 => 30 | 10 => 31 | 11 => 30 | 12 => 31
  | _ => 0

/-- Length of a month in a given year. -/
def daysInMonth (y m : Nat) : Nat :=
  if m = 2 ∧ isLeap y then 29 else monthDays m

/-- Days in year `y` before the first day of month `m`. -/
def daysBeforeMonth (y m : Nat) : Nat :=
  (List.range (m - 1)).foldl (fun acc i => acc + daysInMonth y (i + 1)) 0

/-- Number of leap years among `0, 1, …, y - 1` (year 0 is a leap year). -/
def leapsBefore (y : Nat) : Nat :=
  (y + 3) / 4 - (y + 99) / 100 + (y + 399) / 400

/-- Day number of the calendar date `y-m-d` counted from 0000-01-01.  Dates
are only ever compared to each other, so the choice of epoch is irrelevant;
monotonicity in the calendar order is all the development relies on, matching
the lexicographic comparison of the `toISOString` prefixes in the source. -/
def toEpochDay (y m d : Nat) : Int :=
  ((365 * y + leapsBefore y + daysBeforeMonth y m + (d - 1) : Nat) : Int)

/-- The ECMAScript `new Date(string)` constructor on the date-only format
`YYYY-MM-DD` (see the model notes at the top of this file): `some` epoch day
for a well-formed calendar date, `none` (an Invalid Date) otherwise. -/
def jsNewDate (s : String) : Option Int :=
  match s.data with
  | [y1, y2, y3, y4, '-', m1, m2, '-', d1, d2] =>
    if y1.isDigit && y2.isDigit && y3.isDigit && y4.isDigit
        && m1.isDigit && m2.isDigit && d1.isDigit && d2.isDigit then
      let y := digitsToNat [y1, y2, y3, y4]
      let m := digitsToNat [m1, m2]
      let d := digitsToNat [d1, d2]
      if 1 ≤ m ∧ m ≤ 12 ∧ 1 ≤ d ∧ d ≤ daysInMonth y m then
        some (toEpochDay y m d)
      else none
    else none
  | _ => none

/-- The test `dateStr.match(/^\d{4}-\d{2}-\d{2}/)` from `parseDate`. -/
def matchIsoPrefix (s : String) : Bool :=
  match s.data with
  | y1 :: y2 :: y3 :: y4 :: '-' :: m1 :: m2 :: '-' :: d1 :: d2 :: _ =>
    y1.isDigit && y2.isDigit && y3.isDigit && y4.isDigit
      && m1.isDigit && m2.isDigit && d1.isDigit && d2.isDigit
  | _ => false

/-- Match `\d{1,2}` followed by the separator, greedily with the regex
backtracking behaviour; returns the digits and the remainder after the
separator. -/
def matchTwoOrOneDigit (sep : Char) (cs : List Char) : Option (List Char × List Char) :=
  match cs with
  | a :: b :: c :: rest =>
    if a.isDigit then
      if b.isDigit then (if c = sep then some ([a, b], rest) else none)
      else if b = sep then some ([a], c :: rest) else none
    else none
  | [a, b] => if a.isDigit && b = sep then some ([a], []) else none
  | _ => none

/-- Match `\d{4}` at the start of the list (trailing characters allowed, the
regexes in `parseDate` are not anchored at the end). -/
def matchFourDigits (cs : List Char) : Option (List Char) :=
  match cs with
  | a :: b :: c :: d :: _ =>
    if a.isDigit && b.isDigit && c.isDigit && d.isDigit then some [a, b, c, d]
    else none
  | _ => none

/-- Match `^(\d{1,2})sep(\d{1,2})sep(\d{4})` and return the three capture
groups, mirroring the dot and slash regexes of `parseDate`. -/
def matchSepFmt (sep : Char) (s : String) : Option (String × String × String) :=
  match matchTwoOrOneDigit sep s.data with
  | none => none
  | some (p1, rest1) =>
    match matchTwoOrOneDigit sep rest1 with
    | none => none
    | some (p2, rest2) =>
      match matchFourDigits rest2 with
      | none => none
      | some y => some (⟨p1⟩, ⟨p2⟩, ⟨y⟩)

/-- JavaScript `padStart(2, "0")`. -/
def padStart2 (s : String) : String :=
  if s.data.length ≥ 2 then s else ⟨List.replicate (2 - s.data.length) '0'⟩ ++ s

/-- The template `` `${year}-${month.padStart(2, "0")}-${day.padStart(2, "0")}` ``
used by `parseDate` to rebuild an ISO string. -/
def mkIsoString (year month day : String) : String :=
  year ++ "-" ++ padStart2 month ++ "-" ++ padStart2 day

/-- `parseDate` of googleSheets.ts lines 430-466 (identical in part_001 lines
467-503).  The outer `Option` is the `Date | null` return type; the inner
`Option Int` is the `Date` object, `some none` being an Invalid Date object.
Branches: empty string, ISO prefix, dot `D.M.YYYY`, slash with the `> 12`
day-first heuristic, then the generic constructor (the only branch that
checks `isNaN`). -/
def parseDate (dateStr : String) : Option (Option Int) :=
  if dateStr = "" then none
  else if matchIsoPrefix dateStr then some (jsNewDate dateStr)
  else
    match matchSepFmt '.' dateStr with
    | some (day, month, year) => some (jsNewDate (mkIsoString year month day))
    | none =>
      match matchSepFmt '/' dateStr with
      | some (part1, part2, year) =>
        if 12 < digitsToNat part1.data then
          some (jsNewDate (mkIsoString year part2 part1))
        else
          some (jsNewDate (mkIsoString year part1 part2))
      | none =>
        match jsNewDate dateStr with
        | none => none
        | some d => some (some d)

/-- State machine of `parseCSVLine` (googleSheets.ts lines 397-425): the
first argument is the rest of the line, the `Bool` is `inQuotes`, then the
current field and the fields emitted so far.  A quote inside quotes followed
by another quote emits one literal quote; otherwise a quote toggles the
state; a comma outside quotes ends the field; every field is trimmed as it
is pushed. -/
def parseCSVLineAux : List Char → Bool → List Char → List String → List String
  | [], _, cur, acc => acc ++ [jsTrim ⟨cur⟩]
  | '"' :: '"' :: rest, true, cur, acc => parseCSVLineAux rest true (cur ++ ['"']) acc
  | '"' :: rest, inQuotes, cur, acc => parseCSVLineAux rest (!inQuotes) cur acc
  | ',' :: rest, false, cur, acc => parseCSVLineAux rest false [] (acc ++ [jsTrim ⟨cur⟩])
  | c :: rest, inQuotes, cur, acc => parseCSVLineAux rest inQuotes (cur ++ [c]) acc

/-- `parseCSVLine`: tokenize one CSV line into trimmed fields. -/
def parseCSVLine (line : String) : List String :=
  parseCSVLineAux line.data false [] []

/-- Index-tracking loop behind `Array.prototype.findIndex` (-1 when no
element satisfies the predicate). -/
def findIdxAux (p : String → Bool) : List String → Nat → Int
  | [], _ => -1
  | h :: t, i => if p h then (i : Int) else findIdxAux p t (i + 1)

/-- JavaScript `headers.findIndex(p)`. -/
def jsFindIndex (p : String → Bool) (l : List String) : Int :=
  findIdxAux p l 0

/-- The predicate `h.toLowerCase().includes(term.toLowerCase())` from
`findColumnIndex`. -/
def headerMatches (h term : String) : Bool :=
  jsIncludes (jsToLower h) (jsToLower term)

/-- `findColumnIndex` (googleSheets.ts lines 374-380, identical in the other
variants): try each search term in order and return the index of the first
header cell containing it, case-insensitively; -1 when nothing matches. -/
def findColumnIndex (headers : List String) : List String → Int
  | [] => -1
  | term :: rest =>
    let idx := jsFindIndex (fun h => headerMatches h term) headers
    if idx ≠ -1 then idx else findColumnIndex headers rest

/-- One aggregate record of the single-sheet service (the `SalesEmployee`
interface of googleSheets.ts lines 10-22). -/
structure SalesEmployee where
  id : String
  name : String
  branch : String
  today : Int
  week : Int
  month : Int
  sixMonths : Int
  year : Int
  amount6mln : Int
  invoice : Int
  invoice3000 : Int
deriving DecidableEq, Repr

/-- Search terms for the `Filial` column (googleSheets.ts lines 124-130). -/
def filialCandidates : List String :=
  ["Filial", "filial", "Филиал", "Branch", "branch"]

/-- Search terms for the payment-date column (lines 133-139). -/
def dateCandidates : List String :=
  ["To\x27lov sanasi", "To\x27lov sanasi", "Payment date", "date", "Date"]

/-- Search terms for the `6 mln` column (lines 142-146). -/
def amount6mlnCandidates : List String :=
  ["6 mln", "6mln", "6млн"]

/-- Search terms for the invoice column (lines 149-154). -/
def invoiceCandidates : List String :=
  ["Invoice", "invoice", "Invoice $", "Инвоис"]

/-- Search terms for the `$3000` column (lines 157-162). -/
def invoice3000Candidates : List String :=
  ["$3000", "3000", "3000$", "Yuqori bonusli $3000"]

/-- The region-to-column table `regionColumnMap` (lines 167-174), in object
insertion order. -/
def regionColumnMap : List (String × String) :=
  [("Toshkent", "Xodim F. I. Sh Toshkent"),
   ("Samarqand", "Xodim F. I. Sh Samarqand"),
   ("Andijon", "Xodim F. I. Sh Andijon"),
   ("Namangan", "Xodim F. I. Sh Namangan"),
   ("Farg\x27ona", "Xodim F. I. Sh Farg\x27ona"),
   ("Qarshi", "Xodim F. I. Sh Qarshi")]

/-- Search terms for the generic employee-name column (lines 185-194). -/
def genericNameCandidates : List String :=
  ["Menejerining ismi", "Manager name", "Ism /familiya", "Ism / familiya",
   "Ism/familiya", "Name", "FISh", "Xodim"]

/-- The `employeeNameIndices` object (lines 176-182): for each region whose
dedicated name column resolves, the pair of region and column index, in
insertion order. -/
def buildNameIndices (headers : List String) : List (String × Int) :=
  regionColumnMap.filterMap (fun p =>
    let idx := findColumnIndex headers [p.2, jsToLower p.2]
    if idx ≠ -1 then some (p.1, idx) else none)

/-- The column indices resolved once per run by `parseSheetData`, plus the
day the run is anchored to (`today` at local midnight, as an epoch day). -/
structure Ctx where
  filialIdx : Int
  dateIdx : Int
  amount6mlnIdx : Int
  invoiceIdx : Int
  invoice3000Idx : Int
  employeeNameIndices : List (String × Int)
  genericNameIdx : Int
  todayDay : Int

/-- `csvText.trim().split("\n")`. -/
def linesOf (csv : String) : List String :=
  jsSplit '\n' (jsTrim csv)

/-- `lines[0].split(",").map((h) => h.trim())` — the header cells.
`jsSplit` always returns at least one (possibly empty) piece, like the
JavaScript `split`. -/
def headersOf (csv : String) : List String :=
  (jsSplit ',' ((linesOf csv).headD "")).map jsTrim

/-- The schema-resolution prefix of `parseSheetData` (lines 118-198). -/
def mkCtx (csv : String) (todayDay : Int) : Ctx :=
  let headers := headersOf csv
  { filialIdx := findColumnIndex headers filialCandidates
    dateIdx := findColumnIndex headers dateCandidates
    amount6mlnIdx := findColumnIndex headers amount6mlnCandidates
    invoiceIdx := findColumnIndex headers invoiceCandidates
    invoice3000Idx := findColumnIndex headers invoice3000Candidates
    employeeNameIndices := buildNameIndices headers
    genericNameIdx := findColumnIndex headers genericNameCandidates
    todayDay := todayDay }

/-- JavaScript `fields[idx]?.trim() || dflt`: out-of-range and negative
indices give `undefined`, and both `undefined` and the empty trimmed string
fall back to the default. -/
def fieldOr (fields : List String) (idx : Int) (dflt : String) : String :=
  if 0 ≤ idx then
    match fields[idx.toNat]? with
    | some s => if jsTrim s = "" then dflt else jsTrim s
    | none => dflt
  else dflt

/-- Lookup in the `employeeNameIndices` object. -/
def assocFind (l : List (String × Int)) (k : String) : Option Int :=
  match l with
  | [] => none
  | p :: t => if p.1 = k then some p.2 else assocFind t k

/-- `const branch = filialIdx !== -1 ? fields[filialIdx]?.trim() || "" : ""`
(line 258). -/
def resolveBranch (ctx : Ctx) (fields : List String) : String :=
  if ctx.filialIdx ≠ -1 then fieldOr fields ctx.filialIdx "" else ""

/-- The fallback scan over `Object.values(employeeNameIndices)` (lines
271-279): the first column whose trimmed value is non-empty, not `"0"` and
longer than 2 characters. -/
def scanNameColumns (idxs : List (String × Int)) (fields : List String) : String :=
  match idxs with
  | [] => ""
  | p :: t =>
    let potentialName := fieldOr fields p.2 ""
    if potentialName ≠ "" ∧ potentialName ≠ "0" ∧ 2 < potentialName.data.length then
      potentialName
    else scanNameColumns t fields

/-- Name resolution (lines 261-279): the branch-specific column first, then
the generic column, then the scan over all region name columns. -/
def resolveName (ctx : Ctx) (fields : List String) (branch : String) : String :=
  let name0 :=
    match assocFind ctx.employeeNameIndices branch with
    | some idx => fieldOr fields idx ""
    | none => ""
  let name1 :=
    if name0 = "" ∧ ctx.genericNameIdx ≠ -1 then fieldOr fields ctx.genericNameIdx ""
    else name0
  if name1 = "" then scanNameColumns ctx.employeeNameIndices fields else name1

/-- The row-rejection test of line 282: empty, the literal `"0"`, shorter
than 2 characters, or case-insensitively `"total"`. -/
def invalidName (name : String) : Prop :=
  name = "" ∨ name = "0" ∨ name.data.length < 2 ∨ jsToLower name = "total"

instance (name : String) : Decidable (invalidName name) := by
  unfold invalidName; infer_instance

/-- `idx !== -1 ? fields[idx]?.trim() || "0" : "0"` — the raw string of a
metric column (lines 294, 303, 307). -/
def metricStr (idx : Int) (fields : List String) : String :=
  if idx ≠ -1 then fieldOr fields idx "0" else "0"

/-- The data carried by a row that survives every filter of the row loop. -/
structure RowInfo where
  name : String
  branch : String
  saleAmount : Int
  amount6mln : Int
  invoice : Int
  invoice3000 : Int
  day : Int
deriving DecidableEq, Repr

/-- Outcome of the body of the row loop for one line: the row is skipped by
a `continue`, or it reaches `toISOString` with an Invalid Date (which
throws), or it is aggregated with the given data. -/
inductive RowOutcome where
  | skip : RowOutcome
  | invalidDate : RowOutcome
  | accept : RowInfo → RowOutcome
deriving DecidableEq, Repr

/-- Date handling of the row loop (lines 285, 319-320 and the
`toISOString` call of line 341): an unset or unparsable date skips the row;
a `Date` object that is invalid reaches `toISOString`, which throws. -/
def rowOutcomeDate (ctx : Ctx) (fields : List String) (name branch : String)
    (saleAmount amount6mln invoice invoice3000 : Int) : RowOutcome :=
  let dateStr := if ctx.dateIdx ≠ -1 then fieldOr fields ctx.dateIdx "" else ""
  match (if dateStr ≠ "" then parseDate dateStr else none) with
  | none => .skip
  | some none => .invalidDate
  | some (some d) => .accept ⟨name, branch, saleAmount, amount6mln, invoice, invoice3000, d⟩

/-- Metric normalization and the sale-amount filter (lines 294-316): the
`6 mln` count is worth 6000000 each when positive, the invoice is added,
and a non-positive sale amount skips the row. -/
def rowOutcomeAmount (ctx : Ctx) (fields : List String) (name branch : String) : RowOutcome :=
  let amount6mln := safeParseInt (metricStr ctx.amount6mlnIdx fields)
  let invoice := safeParseInt (metricStr ctx.invoiceIdx fields)
  let invoice3000 := safeParseInt (metricStr ctx.invoice3000Idx fields)
  let amount6mlnValue := if 0 < amount6mln then 6000000 * amount6mln else 0
  let saleAmount := amount6mlnValue + invoice
  if saleAmount ≤ 0 then .skip
  else rowOutcomeDate ctx fields name branch saleAmount amount6mln invoice invoice3000

/-- Name resolution and rejection (lines 261-282). -/
def rowOutcomeNamed (ctx : Ctx) (fields : List String) (branch : String) : RowOutcome :=
  let name := resolveName ctx fields branch
  if invalidName name then .skip else rowOutcomeAmount ctx fields name branch

/-- Branch resolution (lines 258-259): an empty branch skips the row. -/
def rowOutcomeFields (ctx : Ctx) (fields : List String) : RowOutcome :=
  let branch := resolveBranch ctx fields
  if branch = "" then .skip else rowOutcomeNamed ctx fields branch

/-- The whole row-loop body for one line (lines 248-363): blank lines and
lines containing the case-insensitive `TOTAL` marker are skipped before the
line is tokenized. -/
def rowOutcome (ctx : Ctx) (line : String) : RowOutcome :=
  if jsTrim line = "" then .skip
  else if jsIncludes (jsToUpper line) "TOTAL" then .skip
  else rowOutcomeFields ctx (parseCSVLine line)

/-- `${name}-${branch}` with whitespace runs collapsed to dashes and
lowercased (`.replace(/\s+/g, "-").toLowerCase()`, line 326); the `Bool`
records whether the previous character was whitespace. -/
def collapseWsAux : List Char → Bool → List Char
  | [], _ => []
  | c :: t, prevWs =>
    if isJsSpace c then
      (if prevWs then collapseWsAux t true else '-' :: collapseWsAux t true)
    else c :: collapseWsAux t false

/-- The record id built at line 326. -/
def mkId (name branch : String) : String :=
  jsToLower ⟨collapseWsAux (name ++ "-" ++ branch).data false⟩

/-- The fresh record inserted at lines 325-337. -/
def freshEmployee (r : RowInfo) : SalesEmployee :=
  { id := mkId r.name r.branch, name := r.name, branch := r.branch,
    today := 0, week := 0, month := 0, sixMonths := 0, year := 0,
    amount6mln := 0, invoice := 0, invoice3000 := 0 }

/-- The window and lifetime accumulation of lines 344-363, with the five
window comparisons on epoch days (`===` for today, `>=` against the window
start for the other four). -/
def accumulate (t : Int) (r : RowInfo) (e : SalesEmployee) : SalesEmployee :=
  { e with
    today := e.today + (if r.day = t then r.saleAmount else 0),
    week := e.week + (if t - 7 ≤ r.day then r.saleAmount else 0),
    month := e.month + (if t - 30 ≤ r.day then r.saleAmount else 0),
    sixMonths := e.sixMonths + (if t - 180 ≤ r.day then r.saleAmount else 0),
    year := e.year + (if t - 365 ≤ r.day then r.saleAmount else 0),
    amount6mln := e.amount6mln + r.amount6mln,
    invoice := e.invoice + r.invoice,
    invoice3000 := e.invoice3000 + r.invoice3000 }

/-- The map key `${name.toLowerCase()}|${branch}` (line 322). -/
def rowKey (r : RowInfo) : String :=
  jsToLower r.name ++ "|" ++ r.branch

/-- The `employeeMap`, as a key-record association list in insertion
order. -/
abbrev AggState := List (String × SalesEmployee)

/-- `employeeMap.has(key)`. -/
def hasKey (st : AggState) (k : String) : Bool :=
  st.any (fun p => p.1 == k)

/-- `employeeMap.set` / in-place mutation of the found record (lines
324-363): update the existing entry or append a fresh one. -/
def applyRow (t : Int) (r : RowInfo) (st : AggState) : AggState :=
  if hasKey st (rowKey r) then
    st.map (fun p => if p.1 = rowKey r then (p.1, accumulate t r p.2) else p)
  else st ++ [(rowKey r, accumulate t r (freshEmployee r))]

/-- The row loop (lines 247-364) over the data lines; `.error` models the
uncaught `RangeError` thrown by `toISOString` on an Invalid Date. -/
def processLines (ctx : Ctx) : List String → AggState → Except String AggState
  | [], st => .ok st
  | l :: ls, st =>
    match rowOutcome ctx l with
    | .skip => processLines ctx ls st
    | .invalidDate => .error "Invalid time value"
    | .accept r => processLines ctx ls (applyRow ctx.todayDay r st)

/-- `parseSheetData` of googleSheets.ts lines 110-369, as a function of the
CSV text and the epoch day of the run's `today` anchor: fewer than two lines
yield `[]`, otherwise the resolved schema drives the row loop and the map's
values are returned in insertion order. -/
def parseSheetData (csv : String) (todayDay : Int) : Except String (List SalesEmployee) :=
  let lines := linesOf csv
  if lines.length < 2 then .ok []
  else
    match processLines (mkCtx csv todayDay) (lines.drop 1) [] with
    | .ok st => .ok (st.map Prod.snd)
    | .error e => .error e

/-- The data lines the row loop of `parseSheetData` iterates over. -/
def dataLines (csv : String) : List String :=
  (linesOf csv).drop 1

/-- The rows of a run that survive every filter and get aggregated. -/
def acceptedOf (ctx : Ctx) (ls : List String) : List RowInfo :=
  ls.filterMap (fun l =>
    match rowOutcome ctx l with
    | .accept r => some r
    | _ => none)

/-- One aggregate record of the multi-region service (part_001 lines
112-123): no `invoice3000` field there. -/
structure Employee2 where
  id : String
  name : String
  branch : String
  today : Int
  week : Int
  month : Int
  sixMonths : Int
  year : Int
  amount6mln : Int
  invoice : Int
deriving DecidableEq, Repr

/-- Search terms for the name column of the multi-region parser (part_001
lines 251-260). -/
def nameCandidates2 : List String :=
  ["Menejerining ismi", "Menejerining ismi", "Manager name", "Ism /familiya",
   "Ism / familiya", "Ism/familiya", "Name", "FISh"]

/-- Search terms for the date column (part_001 lines 265-272). -/
def dateCandidates2 : List String :=
  ["Shartnoma sanasi", "Shartnoma sanasi", "Date", "date", "Timestamp",
   "Bugungi kunni"]

/-- Search terms for the contract-type column (part_001 lines 275-282). -/
def sharnomaTuriCandidates : List String :=
  ["Sharnoma turi", "Shartnoma turi", "Sharnoma turi", "Contract type",
   "Shartnoma turi", "Shartnoma"]

/-- Search terms for the invoice column (part_001 lines 284-289). -/
def invoiceCandidates2 : List String :=
  ["Invoice $", "Invoice", "invoice", "Invoice $"]

/-- Resolved schema of the multi-region parser plus its fixed branch label
and the run's anchor day. -/
structure Ctx2 where
  nameIdx : Int
  dateIdx : Int
  sharnomaTuriIdx : Int
  invoiceIdx : Int
  branch : String
  todayDay : Int

/-- Header cells of the multi-region parser: taken from the second line
(part_001 line 247). -/
def headersOf2 (csv : String) : List String :=
  (jsSplit ',' ((linesOf csv).getD 1 "")).map jsTrim

/-- Schema resolution of the multi-region parser (part_001 lines 250-289). -/
def mkCtx2 (csv regionName : String) (todayDay : Int) : Ctx2 :=
  let headers := headersOf2 csv
  { nameIdx := findColumnIndex headers nameCandidates2
    dateIdx := findColumnIndex headers dateCandidates2
    sharnomaTuriIdx := findColumnIndex headers sharnomaTuriCandidates
    invoiceIdx := findColumnIndex headers invoiceCandidates2
    branch := regionName
    todayDay := todayDay }

/-- Data of a surviving row of the multi-region parser. -/
structure RowInfo2 where
  name : String
  saleAmount : Int
  amount6mln : Int
  invoice : Int
  day : Int
deriving DecidableEq, Repr

/-- Outcome of the multi-region row-loop body for one line. -/
inductive RowOutcome2 where
  | skip : RowOutcome2
  | invalidDate : RowOutcome2
  | accept : RowInfo2 → RowOutcome2
deriving DecidableEq, Repr

/-- The row-loop body of the multi-region parser (part_001 lines 318-401):
blank and `TOTAL` lines, a missing name column or too few fields, an invalid
name, the `>= 6000000` contract-type threshold, the non-positive sale-amount
filter, then the date: `null` skips, an Invalid Date reaches `toISOString`
and throws. -/
def rowOutcome2 (ctx : Ctx2) (line : String) : RowOutcome2 :=
  if jsTrim line = "" then .skip
  else if jsIncludes (jsToUpper line) "TOTAL" then .skip
  else
    let fields := parseCSVLine line
    if ctx.nameIdx = -1 ∨ (fields.length : Int) < max ctx.nameIdx ctx.dateIdx + 1 then .skip
    else
      let name := fieldOr fields ctx.nameIdx ""
      let dateStr := fieldOr fields ctx.dateIdx ""
      if invalidName name then .skip
      else
        let sharnomaTuriValue := safeParseInt (fieldOr fields ctx.sharnomaTuriIdx "0")
        let amount6mln : Int := if 6000000 ≤ sharnomaTuriValue then 1 else 0
        let invoice := safeParseInt (fieldOr fields ctx.invoiceIdx "0")
        let saleAmount := sharnomaTuriValue + invoice
        if saleAmount ≤ 0 then .skip
        else
          match parseDate dateStr with
          | none => .skip
          | some none => .invalidDate
          | some (some d) => .accept ⟨name, saleAmount, amount6mln, invoice, d⟩

/-- The fresh record of part_001 lines 362-375. -/
def freshEmployee2 (branch : String) (r : RowInfo2) : Employee2 :=
  { id := mkId r.name branch, name := r.name, branch := branch,
    today := 0, week := 0, month := 0, sixMonths := 0, year := 0,
    amount6mln := 0, invoice := 0 }

/-- Window and lifetime accumulation of part_001 lines 377-400. -/
def accumulate2 (t : Int) (r : RowInfo2) (e : Employee2) : Employee2 :=
  { e with
    today := e.today + (if r.day = t then r.saleAmount else 0),
    week := e.week + (if t - 7 ≤ r.day then r.saleAmount else 0),
    month := e.month + (if t - 30 ≤ r.day then r.saleAmount else 0),
    sixMonths := e.sixMonths + (if t - 180 ≤ r.day then r.saleAmount else 0),
    year := e.year + (if t - 365 ≤ r.day then r.saleAmount else 0),
    amount6mln := e.amount6mln + r.amount6mln,
    invoice := e.invoice + r.invoice }

/-- The map key of part_001 line 360. -/
def rowKey2 (branch : String) (r : RowInfo2) : String :=
  jsToLower r.name ++ "|" ++ branch

/-- The multi-region `employeeMap`. -/
abbrev AggState2 := List (String × Employee2)

/-- Map insertion or in-place update (part_001 lines 362-400). -/
def applyRow2 (ctx : Ctx2) (r : RowInfo2) (st : AggState2) : AggState2 :=
  let k := rowKey2 ctx.branch r
  if st.any (fun p => p.1 == k) then
    st.map (fun p => if p.1 = k then (p.1, accumulate2 ctx.todayDay r p.2) else p)
  else st ++ [(k, accumulate2 ctx.todayDay r (freshEmployee2 ctx.branch r))]

/-- The multi-region row loop (part_001 lines 318-401). -/
def processLines2 (ctx : Ctx2) : List String → AggState2 → Except String AggState2
  | [], st => .ok st
  | l :: ls, st =>
    match rowOutcome2 ctx l with
    | .skip => processLines2 ctx ls st
    | .invalidDate => .error "Invalid time value"
    | .accept r => processLines2 ctx ls (applyRow2 ctx r st)

/-- `parseSheetData` of part_001 lines 238-406: headers on the second line,
data from the third line on, branch fixed to the region name; fewer than
three lines yield `[]`. -/
def parseSheetData2 (csv regionName : String) (todayDay : Int) :
    Except String (List Employee2) :=
  let lines := linesOf csv
  if lines.length < 3 then .ok []
  else
    match processLines2 (mkCtx2 csv regionName todayDay) (lines.drop 2) [] with
    | .ok st => .ok (st.map Prod.snd)
    | .error e => .error e

/-- Outcome of the two retrieval endpoints of one region sheet: each
endpoint either produced a body (`some`) or failed with the given rendered
HTTP status. -/
structure RegionOutcome where
  name : String
  direct : Option String
  directStatus : String
  alt : Option String
  altStatus : String

/-- The endpoint fallback of part_001 lines 168-199: the direct export URL
first, then the published URL; when both fail, the recorded failure reason.
Returns the body (if any) and the `fetchError` variable. -/
def endpointFetch (r : RegionOutcome) : Option String × Option String :=
  match r.direct with
  | some b => (some b, none)
  | none =>
    match r.alt with
    | some b => (some b, none)
    | none =>
      (none, some ("Both direct fetch (" ++ r.directStatus
        ++ ") and alternative URL (" ++ r.altStatus ++ ") failed"))

/-- `errors.join("\n")`. -/
def joinNl : List String → String
  | [] => ""
  | [e] => e
  | e :: rest => e ++ "\n" ++ joinNl rest

/-- The `NoDataAvailable` diagnostic of part_001 lines 220-227. -/
def noDataMsg (errs : List String) : String :=
  "No data could be fetched from any region sheets."
    ++ (if errs.isEmpty then "" else "\n\nErrors:\n" ++ joinNl errs)
    ++ "\n\nPlease ensure:\n1. All Google Sheets are set to \"Anyone with the link can view\"\n2. Check browser console for detailed error messages\n3. Verify sheet IDs are correct in the code"

/-- The per-region loop of part_001 lines 160-217, accumulating
`allEmployees` and `errors`: a region whose endpoints fail, whose body is
empty, or whose parse throws is recorded in `errors` and the loop
continues with the remaining regions. -/
def fetchLoop (t : Int) : List RegionOutcome → List Employee2 → List String →
    List Employee2 × List String
  | [], emps, errs => (emps, errs)
  | r :: rest, emps, errs =>
    match endpointFetch r with
    | (some csv, ferr) =>
      if jsTrim csv ≠ "" then
        match parseSheetData2 csv r.name t with
        | .ok regionData => fetchLoop t rest (emps ++ regionData) errs
        | .error m =>
          fetchLoop t rest emps
            (errs ++ ["Error fetching data for " ++ r.name ++ ": " ++ m])
      else
        fetchLoop t rest emps
          (errs ++ ["No CSV data received for " ++ r.name ++ ". " ++ ferr.getD "Unknown error"])
    | (none, ferr) =>
      fetchLoop t rest emps
        (errs ++ ["No CSV data received for " ++ r.name ++ ". " ++ ferr.getD "Unknown error"])

/-- `fetchGoogleSheetData` of part_001 lines 149-233 below the cache check,
parameterized by the per-region endpoint outcomes: fetch and aggregate every
region, then fail with the aggregated diagnostic exactly when no region
contributed any record. -/
def fetchAllRegions (regions : List RegionOutcome) (t : Int) :
    Except String (List Employee2) :=
  let (emps, errs) := fetchLoop t regions [] []
  if emps.length = 0 then .error (noDataMsg errs) else .ok emps

/-- The records one region contributes to a run (empty when its endpoints
fail, its body is empty, or its parse throws). -/
def regionRecords (t : Int) (r : RegionOutcome) : List Employee2 :=
  match endpointFetch r with
  | (some csv, _) =>
    if jsTrim csv ≠ "" then
      match parseSheetData2 csv r.name t with
      | .ok ds => ds
      | .error _ => []
    else []
  | (none, _) => []

/-- The failure reason one region pushes onto `errors`, if any. -/
def regionFailMsg (t : Int) (r : RegionOutcome) : Option String :=
  match endpointFetch r with
  | (some csv, ferr) =>
    if jsTrim csv ≠ "" then
      match parseSheetData2 csv r.name t with
      | .ok _ => none
      | .error m => some ("Error fetching data for " ++ r.name ++ ": " ++ m)
    else some ("No CSV data received for " ++ r.name ++ ". " ++ ferr.getD "Unknown error")
  | (none, ferr) =>
    some ("No CSV data received for " ++ r.name ++ ". " ++ ferr.getD "Unknown error")

/-- Outcome of the two retrieval endpoints of the single-sheet service
(googleSheets.ts lines 48-76). -/
structure FetchOutcome where
  direct : Option String
  directStatus : String
  alt : Option String
  altStatus : String

/-- Endpoint fallback of the single-sheet service (lines 52-76). -/
def singleFetch (o : FetchOutcome) : Option String × Option String :=
  match o.direct with
  | some b => (some b, none)
  | none =>
    match o.alt with
    | some b => (some b, none)
    | none =>
      (none, some ("Both direct fetch (" ++ o.directStatus
        ++ ") and alternative URL (" ++ o.altStatus ++ ") failed"))

/-- The module-level cache cell (`cachedData`, `lastFetchTime`, lines
29-30). -/
structure CacheState where
  cachedData : Option (List SalesEmployee)
  lastFetchTime : Int
deriving DecidableEq, Repr

/-- `CACHE_DURATION = 5 * 60 * 1000` (milliseconds). -/
def cacheDuration : Int := 5 * 60 * 1000

/-- The `No CSV data received` diagnostic of lines 91-97. -/
def noCsvMsg (ferr : Option String) : String :=
  "No CSV data received. " ++ ferr.getD "Unknown error"
    ++ "\n\nPlease ensure:\n1. Google Sheet is set to \"Anyone with the link can view\"\n2. Check browser console for detailed error messages\n3. Verify sheet ID and GID are correct in the code"

/-- The fetch-and-aggregate body of `fetchGoogleSheetData` (lines 44-103)
run on a cache miss: on success the cache cell is replaced and stamped with
`now`; every failure (no body, empty body, or a parse throw) leaves the
cache untouched and rethrows with the `Error fetching data:` prefix of the
outer catch.  The last component counts this Fetcher invocation. -/
def runFetchPipeline (o : FetchOutcome) (todayDay now : Int) (st : CacheState) :
    CacheState × Except String (List SalesEmployee) × Nat :=
  match singleFetch o with
  | (some csv, ferr) =>
    if jsTrim csv ≠ "" then
      match parseSheetData csv todayDay with
      | .ok emps => ({ cachedData := some emps, lastFetchTime := now }, .ok emps, 1)
      | .error m => (st, .error ("Error fetching data: " ++ m), 1)
    else (st, .error ("Error fetching data: " ++ noCsvMsg ferr), 1)
  | (none, ferr) => (st, .error ("Error fetching data: " ++ noCsvMsg ferr), 1)

/-- `fetchGoogleSheetData` of googleSheets.ts lines 37-104 as a state
transformer on the cache cell: a valid cache entry (`cachedData` set and
`now - lastFetchTime < CACHE_DURATION`) is returned with no Fetcher
invocation; otherwise the fetch-and-aggregate pipeline runs once. -/
def fetchGoogleSheetData (o : FetchOutcome) (todayDay now : Int) (st : CacheState) :
    CacheState × Except String (List SalesEmployee) × Nat :=
  match st.cachedData with
  | some d =>
    if now - st.lastFetchTime < cacheDuration then (st, .ok d, 0)
    else runFetchPipeline o todayDay now st
  | none => runFetchPipeline o todayDay now st

/-- The key a stored record answers to: `${name.toLowerCase()}|${branch}`
rebuilt from the record's own fields. -/
def empKey (e : SalesEmployee) : String :=
  jsToLower e.name ++ "|" ++ e.branch

/-- Total sale amount of the rows with the given key whose day satisfies
the window predicate. -/
def sumWhere (k : String) (p : Int → Prop) [DecidablePred p] (rows : List RowInfo) : Int :=
  rows.foldr (fun r acc => if rowKey r = k ∧ p r.day then r.saleAmount + acc else acc) 0

/-- Loop invariant of the row loop: every map entry stores its own key and
window totals that are exactly the sums of the matching accepted rows, and
every accepted row owns an entry. -/
def InvS (t : Int) (rows : List RowInfo) (st : AggState) : Prop :=
  (∀ pe ∈ st, pe.1 = empKey pe.2
    ∧ pe.2.today = sumWhere pe.1 (fun d => d = t) rows
    ∧ pe.2.week = sumWhere pe.1 (fun d => t - 7 ≤ d) rows
    ∧ pe.2.month = sumWhere pe.1 (fun d => t - 30 ≤ d) rows
    ∧ pe.2.sixMonths = sumWhere pe.1 (fun d => t - 180 ≤ d) rows
    ∧ pe.2.year = sumWhere pe.1 (fun d => t - 365 ≤ d) rows)
  ∧ (∀ r ∈ rows, ∃ pe ∈ st, pe.1 = rowKey r)

lemma parseCSVLineAux_other (c : Char) (rest : List Char) (b : Bool) (cur : List Char)
    (acc : List String) (hc : c ≠ '"') (hcc : ¬(c = ',' ∧ b = false)) :
    parseCSVLineAux (c :: rest) b cur acc = parseCSVLineAux rest b (cur ++ [c]) acc := by
  rw [parseCSVLineAux] <;> intros <;> simp_all

lemma parseCSVLineAux_open (rest cur : List Char) (acc : List String) :
    parseCSVLineAux ('"' :: rest) false cur acc = parseCSVLineAux rest true cur acc := by
  rw [parseCSVLineAux] <;> intros <;> simp_all

lemma parseCSVLineAux_double_quote (rest cur : List Char) (acc : List String) :
    parseCSVLineAux ('"' :: '"' :: rest) true cur acc
      = parseCSVLineAux rest true (cur ++ ['"']) acc := by
  rw [parseCSVLineAux]

lemma parseCSVLineAux_quoted_run (s : List Char) (hs : ∀ c ∈ s, c ≠ '"') :
    ∀ (rest cur : List Char) (acc : List String),
      parseCSVLineAux (s ++ rest) true cur acc = parseCSVLineAux rest true (cur ++ s) acc := by
  induction s with
  | nil => intro rest cur acc; simp
  | cons c t ih =>
    intro rest cur acc
    have hc : c ≠ '"' := hs c (List.mem_cons_self c t)
    have step := parseCSVLineAux_other c (t ++ rest) true cur acc hc (by simp)
    calc parseCSVLineAux (c :: t ++ rest) true cur acc
        = parseCSVLineAux (t ++ rest) true (cur ++ [c]) acc := step
      _ = parseCSVLineAux rest true ((cur ++ [c]) ++ t) acc :=
          ih (fun d hd => hs d (List.mem_cons_of_mem c hd)) rest (cur ++ [c]) acc
      _ = parseCSVLineAux rest true (cur ++ c :: t) acc := by
          rw [List.append_assoc]; rfl

lemma parseCSVLineAux_close_quote (cur : List Char) (acc : List String) :
    parseCSVLineAux ['"'] true cur acc = acc ++ [jsTrim ⟨cur⟩] := by
  rw [parseCSVLineAux] <;> intros <;> simp_all [parseCSVLineAux]

/-- C4: the tokenizer honors quoted fields.  A field wrapped in double
quotes may contain the comma delimiter literally (first conjunct, for any
quote-free content, commas included), a doubled quote inside a quoted field
yields one literal quote (second conjunct), and in particular tokenizing
`"a,b",c` yields exactly the fields `a,b` and `c`, while a quoted field
containing `a""b` yields the literal content `a"b`. -/
theorem parseCSVLine_quoted_fields :
    (∀ s : String, '"' ∉ s.data → parseCSVLine ("\"" ++ s ++ "\"") = [jsTrim s])
    ∧ (∀ a b : String, '"' ∉ a.data → '"' ∉ b.data →
        parseCSVLine ("\"" ++ a ++ "\"\"" ++ b ++ "\"") = [jsTrim (a ++ "\"" ++ b)])
    ∧ parseCSVLine "\"a,b\",c" = ["a,b", "c"]
    ∧ parseCSVLine "\"a\"\"b\"" = ["a\"b"] := by
  refine ⟨?_, ?_, by decide, by decide⟩
  · intro s h
    have hdata : ("\"" ++ s ++ "\"").data = '"' :: (s.data ++ ['"']) := by
      simp [String.data_append]
    unfold parseCSVLine
    rw [hdata, parseCSVLineAux_open,
      parseCSVLineAux_quoted_run s.data (fun c hc heq => h (heq ▸ hc)) ['"'] [] [],
      parseCSVLineAux_close_quote]
    rfl
  · intro a b ha hb
    have hdata : ("\"" ++ a ++ "\"\"" ++ b ++ "\"").data
        = '"' :: (a.data ++ ('"' :: '"' :: (b.data ++ ['"']))) := by
      simp [String.data_append]
    unfold parseCSVLine
    rw [hdata, parseCSVLineAux_open,
      parseCSVLineAux_quoted_run a.data (fun c hc heq => ha (heq ▸ hc)),
      parseCSVLineAux_double_quote,
      parseCSVLineAux_quoted_run b.data (fun c hc heq => hb (heq ▸ hc)),
      parseCSVLineAux_close_quote]
    have hmerge : (([] ++ a.data) ++ ['"']) ++ b.data = (a ++ "\"" ++ b).data := by
      simp [String.data_append]
    rw [hmerge]
    rfl

/-- Witness for C4: the quoted-field property applied to the concrete
content `x,y`. -/
theorem parseCSVLine_quoted_fields_witness :
    '"' ∉ "x,y".data ∧ parseCSVLine ("\"" ++ "x,y" ++ "\"") = [jsTrim "x,y"] :=
  ⟨by decide, parseCSVLine_quoted_fields.1 "x,y" (by decide)⟩

/-- C5 counterexample: the claim covers the `safeParseInt` at googleSheets.ts
lines 740-744, but that variant applies no stripping, so `"1 500 000"`
parses to 1, not 1500000. -/
theorem safeParseIntV2_no_strip_counterexample :
    safeParseIntV2 "1 500 000" = 1 ∧ (1 : Int) ≠ 1500000 :=
  ⟨by decide, by decide⟩

/-- C5 (amended): the stripping parser at lines 385-392 satisfies the claim:
`"1 500 000"` parses to 1500000, the empty string and fully-stripped strings
parse to 0, `"-12"` to -12 and `"abc"` to 0; the plain variant at lines
740-744 parses the raw string directly, so `"1 500 000"` yields 1. -/
theorem safeParseInt_amended :
    safeParseInt "1 500 000" = 1500000
    ∧ safeParseInt "" = 0
    ∧ safeParseInt "-12" = -12
    ∧ safeParseInt "abc" = 0
    ∧ (∀ s : String, stripToDigitsMinus s = "" → safeParseInt s = 0)
    ∧ safeParseIntV2 "1 500 000" = 1 := by
  refine ⟨by decide, by decide, by decide, by decide, ?_, by decide⟩
  intro s h
  by_cases hs : s = ""
  · simp [safeParseInt, hs]
  · simp [safeParseInt, hs, h]

/-- Witness for C5: the stripped-to-empty rule applied to `"xyz"`. -/
theorem safeParseInt_amended_witness :
    stripToDigitsMinus "xyz" = "" ∧ safeParseInt "xyz" = 0 :=
  ⟨by decide, safeParseInt_amended.2.2.2.2.1 "xyz" (by decide)⟩

lemma parseDate_iso (s : String) (h1 : s ≠ "") (h2 : matchIsoPrefix s = true) :
    parseDate s = some (jsNewDate s) := by
  simp [parseDate, h1, h2]

lemma parseDate_none_char (s : String) (h : parseDate s = none) :
    s = "" ∨ (matchIsoPrefix s = false ∧ matchSepFmt '.' s = none
      ∧ matchSepFmt '/' s = none ∧ jsNewDate s = none) := by
  by_cases hs : s = ""
  · exact Or.inl hs
  · right
    rw [parseDate, if_neg hs] at h
    cases hiso : matchIsoPrefix s with
    | true => rw [hiso] at h; simp at h
    | false =>
      rw [hiso] at h
      simp only [Bool.false_eq_true, if_false] at h
      cases hdot : matchSepFmt '.' s with
      | some v => rw [hdot] at h; rcases v with ⟨d, m, y⟩; simp at h
      | none =>
        rw [hdot] at h
        cases hsl : matchSepFmt '/' s with
        | some v =>
          rw [hsl] at h
          rcases v with ⟨p1, p2, y⟩
          simp only at h
          split at h <;> simp at h
        | none =>
          rw [hsl] at h
          cases hnd : jsNewDate s with
          | none => exact ⟨rfl, rfl, rfl, rfl⟩
          | some d => rw [hnd] at h; simp at h

lemma findIdxAux_neg_iff (p : String → Bool) :
    ∀ (l : List String) (i : Nat),
      (findIdxAux p l i = -1 ↔ ∀ h ∈ l, p h = false) := by
  intro l
  induction l with
  | nil => intro i; simp [findIdxAux]
  | cons a t ih =>
    intro i
    by_cases hp : p a
    · simp [findIdxAux, hp]
    · simp [findIdxAux, hp, ih (i + 1)]

lemma findIdxAux_some (p : String → Bool) :
    ∀ (l : List String) (i j : Nat), findIdxAux p l i = ((j : Nat) : Int) →
      i ≤ j ∧ ∃ h, l[j - i]? = some h ∧ p h = true
        ∧ ∀ k, k < j - i → ∀ h', l[k]? = some h' → p h' = false := by
  intro l
  induction l with
  | nil => intro i j hj; simp [findIdxAux] at hj
  | cons a t ih =>
    intro i j hj
    by_cases hp : p a
    · rw [findIdxAux, if_pos hp] at hj
      have hij : i = j := by exact_mod_cast hj
      subst hij
      refine ⟨le_refl i, a, ?_, hp, ?_⟩
      · simp
      · intro k hk h' hg
        omega
    · rw [findIdxAux, if_neg hp] at hj
      obtain ⟨hle, h, hget, hph, hmin⟩ := ih (i + 1) j hj
      refine ⟨by omega, h, ?_, hph, ?_⟩
      · have heq : j - i = (j - (i + 1)) + 1 := by omega
        rw [heq]
        simpa using hget
      · intro k hk h' hget'
        cases k with
        | zero => simp at hget'; subst hget'; simpa using hp
        | succ k' =>
          have hk' : k' < j - (i + 1) := by omega
          apply hmin k' hk'
          simpa using hget'

lemma findIdxAux_cases (p : String → Bool) :
    ∀ (l : List String) (i : Nat),
      findIdxAux p l i = -1 ∨ ∃ j : Nat, findIdxAux p l i = ((j : Nat) : Int) := by
  intro l
  induction l with
  | nil => intro i; exact Or.inl rfl
  | cons a t ih =>
    intro i
    by_cases hp : p a
    · exact Or.inr ⟨i, by rw [findIdxAux, if_pos hp]⟩
    · rw [findIdxAux, if_neg hp]
      exact ih (i + 1)

/-- C8: for every header row and ordered candidate list, `findColumnIndex`
returns -1 exactly when no header cell contains any candidate
(case-insensitively), and a non-negative result is the index of the first
header cell containing the first candidate that matches at all: candidates
are tried in priority order, the returned index exists, matches, and no
earlier header cell matches that candidate — never a crash, never a guessed
index. -/
theorem findColumnIndex_resolution (headers terms : List String) :
    (findColumnIndex headers terms = -1 ↔
      ∀ t ∈ terms, ∀ h ∈ headers, headerMatches h t = false)
    ∧ (∀ i : Nat, findColumnIndex headers terms = ((i : Nat) : Int) →
        ∃ h, headers[i]? = some h
          ∧ ∃ pre t post, terms = pre ++ t :: post
            ∧ (∀ t' ∈ pre, ∀ h' ∈ headers, headerMatches h' t' = false)
            ∧ headerMatches h t = true
            ∧ ∀ k, k < i → ∀ h', headers[k]? = some h' → headerMatches h' t = false) := by
  induction terms with
  | nil =>
    constructor
    · simp [findColumnIndex]
    · intro i hi
      exfalso
      rw [findColumnIndex] at hi
      omega
  | cons term rest ih =>
    by_cases hidx : jsFindIndex (fun h => headerMatches h term) headers = -1
    · have hall : ∀ h ∈ headers, headerMatches h term = false :=
        (findIdxAux_neg_iff _ headers 0).mp hidx
      have hfc : findColumnIndex headers (term :: rest) = findColumnIndex headers rest := by
        simp [findColumnIndex, jsFindIndex] at hidx ⊢
        simp [hidx]
      constructor
      · rw [hfc, ih.1]
        constructor
        · intro hr t ht
          rcases List.mem_cons.mp ht with rfl | ht'
          · exact hall
          · exact hr t ht'
        · intro hr t ht
          exact hr t (List.mem_cons_of_mem _ ht)
      · intro i hi
        rw [hfc] at hi
        obtain ⟨h, hh, pre, t, post, hterms, hpre, hmatch, hmin⟩ := ih.2 i hi
        refine ⟨h, hh, term :: pre, t, post, by rw [hterms]; rfl, ?_, hmatch, hmin⟩
        intro t' ht' h' hh'
        rcases List.mem_cons.mp ht' with rfl | ht''
        · exact hall h' hh'
        · exact hpre t' ht'' h' hh'
    · rcases findIdxAux_cases (fun h => headerMatches h term) headers 0 with hneg | ⟨j, hj⟩
      · exact absurd hneg hidx
      · have hj' : jsFindIndex (fun h => headerMatches h term) headers = ((j : Nat) : Int) := hj
        have hfc : findColumnIndex headers (term :: rest)
            = ((j : Nat) : Int) := by
          rw [findColumnIndex, hj']
          simp [show ¬(((j : Nat) : Int) = -1) from by omega]
        obtain ⟨_, h, hget, hmatch, hmin⟩ := findIdxAux_some _ headers 0 j hj
        constructor
        · rw [hfc]
          constructor
          · intro heq; exfalso; omega
          · intro hr
            exfalso
            have hmem : h ∈ headers := List.getElem?_mem (by simpa using hget)
            have := hr term (List.mem_cons_self term rest) h hmem
            rw [hmatch] at this
            exact Bool.noConfusion this
        · intro i hi
          rw [hfc] at hi
          have hji : j = i := by exact_mod_cast hi
          subst hji
          refine ⟨h, by simpa using hget, [], term, rest, rfl, by simp, hmatch, ?_⟩
          intro k hk h' hget'
          exact hmin k (by omega) h' hget'

/-- C6 counterexample: on `"2024-99-99"` every attempt of `parseDate` fails
or yields an invalid date (the ISO branch matches but the date is not a
calendar date), yet the parser returns the Invalid Date object, not none. -/
theorem parseDate_invalid_date_counterexample :
    parseDate "2024-99-99" ≠ none ∧ parseDate "2024-99-99" = some none :=
  ⟨by decide, by decide⟩

/-- C6 (amended): `parseDate` tries, in order, the ISO prefix, dot
`D.M.YYYY`, slash with the `> 12` day-first heuristic, then the generic
constructor, but only the generic fallback checks validity: a string
matching the ISO prefix is returned as `new Date(s)` unchecked (possibly an
Invalid Date), and none is returned only for the empty string or when no
pattern matches and the generic constructor yields an invalid date.  The
examples hold: `"31/01/2024"` and `"2024-01-31"` both parse to 2024-01-31,
and an unparsable string yields none. -/
theorem parseDate_amended :
    parseDate "31/01/2024" = some (some (toEpochDay 2024 1 31))
    ∧ parseDate "2024-01-31" = some (some (toEpochDay 2024 1 31))
    ∧ parseDate "hello" = none
    ∧ parseDate "2024-99-99" = some none
    ∧ (∀ s : String, s ≠ "" → matchIsoPrefix s = true → parseDate s = some (jsNewDate s))
    ∧ (∀ s : String, parseDate s = none →
        s = "" ∨ (matchIsoPrefix s = false ∧ matchSepFmt '.' s = none
          ∧ matchSepFmt '/' s = none ∧ jsNewDate s = none)) :=
  ⟨by decide, by decide, by decide, by decide, parseDate_iso, parseDate_none_char⟩

/-- Witness for C6: the unchecked ISO branch applied to `"2024-99-99"`. -/
theorem parseDate_amended_witness :
    ("2024-99-99" : String) ≠ "" ∧ matchIsoPrefix "2024-99-99" = true
      ∧ parseDate "2024-99-99" = some (jsNewDate "2024-99-99") :=
  ⟨by decide, by decide, parseDate_amended.2.2.2.2.1 "2024-99-99" (by decide) (by decide)⟩

/-- Witness for C8: resolution applied to a concrete header row, in the
unresolved direction. -/
theorem findColumnIndex_resolution_witness :
    findColumnIndex ["a"] ["Filial"] = -1
      ∧ ∀ t ∈ ["Filial"], ∀ h ∈ ["a"], headerMatches h t = false :=
  ⟨by decide, (findColumnIndex_resolution ["a"] ["Filial"]).1.mp (by decide)⟩

/-- C7: the row loop skips blank lines and lines containing the
case-insensitive `TOTAL` marker, and rejects rows whose resolved name is
empty, the literal `0`, shorter than 2 characters, or case-insensitively
`total`; a row skipped for any of these reasons leaves the aggregation
state untouched, so it contributes to no record. -/
theorem rowOutcome_skip_rules (ctx : Ctx) (line : String) :
    ((jsTrim line = "" ∨ jsIncludes (jsToUpper line) "TOTAL" = true
        ∨ invalidName (resolveName ctx (parseCSVLine line) (resolveBranch ctx (parseCSVLine line))))
      → rowOutcome ctx line = .skip)
    ∧ (∀ (st : AggState) (ls : List String), rowOutcome ctx line = .skip →
        processLines ctx (line :: ls) st = processLines ctx ls st) := by
  constructor
  · intro h
    by_cases hb : jsTrim line = ""
    · simp [rowOutcome, hb]
    · by_cases ht : jsIncludes (jsToUpper line) "TOTAL" = true
      · simp [rowOutcome, hb, ht]
      · rcases h with h | h | h
        · exact absurd h hb
        · exact absurd h ht
        · rw [rowOutcome, if_neg hb, if_neg ht, rowOutcomeFields]
          by_cases hbr : resolveBranch ctx (parseCSVLine line) = ""
          · simp [hbr]
          · simp only [hbr, if_neg, ite_false]
            rw [rowOutcomeNamed, if_pos h]
  · intro st ls h
    simp [processLines, h]

/-- Witness for C7: a blank line leaves the state untouched. -/
theorem rowOutcome_skip_rules_witness :
    (jsTrim " " = "" ∨ jsIncludes (jsToUpper " ") "TOTAL" = true
      ∨ invalidName (resolveName
          { filialIdx := -1, dateIdx := -1, amount6mlnIdx := -1, invoiceIdx := -1,
            invoice3000Idx := -1, employeeNameIndices := [], genericNameIdx := -1,
            todayDay := 0 } (parseCSVLine " ")
          (resolveBranch
            { filialIdx := -1, dateIdx := -1, amount6mlnIdx := -1, invoiceIdx := -1,
              invoice3000Idx := -1, employeeNameIndices := [], genericNameIdx := -1,
              todayDay := 0 } (parseCSVLine " "))))
    ∧ rowOutcome
        { filialIdx := -1, dateIdx := -1, amount6mlnIdx := -1, invoiceIdx := -1,
          invoice3000Idx := -1, employeeNameIndices := [], genericNameIdx := -1,
          todayDay := 0 } " " = .skip :=
  ⟨Or.inl (by decide),
    (rowOutcome_skip_rules
      { filialIdx := -1, dateIdx := -1, amount6mlnIdx := -1, invoiceIdx := -1,
        invoice3000Idx := -1, employeeNameIndices := [], genericNameIdx := -1,
        todayDay := 0 } " ").1 (Or.inl (by decide))⟩

lemma processLines_all_skip (ctx : Ctx) (ls : List String)
    (h : ∀ l, rowOutcome ctx l = .skip) :
    ∀ st, processLines ctx ls st = .ok st := by
  induction ls with
  | nil => intro st; rfl
  | cons l t ih => intro st; simp [processLines, h l, ih]

lemma rowOutcome_skip_of_filial (ctx : Ctx) (hf : ctx.filialIdx = -1) (line : String) :
    rowOutcome ctx line = .skip := by
  rw [rowOutcome]
  split_ifs
  · rfl
  · rfl
  · rw [rowOutcomeFields]
    simp [resolveBranch, hf]

lemma rowOutcomeDate_skip_of_neg (ctx : Ctx) (fields : List String)
    (name branch : String) (sa a i i3 : Int) (hd : ctx.dateIdx = -1) :
    rowOutcomeDate ctx fields name branch sa a i i3 = .skip := by
  simp [rowOutcomeDate, hd]

lemma rowOutcome_skip_of_date (ctx : Ctx) (hd : ctx.dateIdx = -1) (line : String) :
    rowOutcome ctx line = .skip := by
  rw [rowOutcome]
  split_ifs
  · rfl
  · rfl
  · rw [rowOutcomeFields]
    split_ifs
    · rfl
    · rw [rowOutcomeNamed]
      split_ifs
      · rfl
      · rw [rowOutcomeAmount]
        split_ifs <;> first
          | rfl
          | (apply rowOutcomeDate_skip_of_neg; exact hd)

lemma rowOutcome_skip_of_metrics (ctx : Ctx) (h6 : ctx.amount6mlnIdx = -1)
    (hi : ctx.invoiceIdx = -1) (line : String) :
    rowOutcome ctx line = .skip := by
  rw [rowOutcome]
  split_ifs
  · rfl
  · rfl
  · rw [rowOutcomeFields]
    split_ifs
    · rfl
    · rw [rowOutcomeNamed]
      split_ifs
      · rfl
      · rw [rowOutcomeAmount]
        simp [metricStr, h6, hi, show safeParseInt "0" = 0 from by decide]

lemma processLines_ok_of_no_invalid (ctx : Ctx) (ls : List String)
    (h : ∀ l ∈ ls, rowOutcome ctx l ≠ .invalidDate) :
    ∀ st, ∃ st', processLines ctx ls st = .ok st' := by
  induction ls with
  | nil => intro st; exact ⟨st, rfl⟩
  | cons l t ih =>
    intro st
    cases ho : rowOutcome ctx l with
    | skip =>
      obtain ⟨st', hst'⟩ := ih (fun l' hl' => h l' (List.mem_cons_of_mem _ hl')) st
      exact ⟨st', by simp [processLines, ho, hst']⟩
    | invalidDate => exact absurd ho (h l (List.mem_cons_self l t))
    | accept r =>
      obtain ⟨st', hst'⟩ := ih (fun l' hl' => h l' (List.mem_cons_of_mem _ hl'))
        (applyRow ctx.todayDay r st)
      exact ⟨st', by simp [processLines, ho, hst']⟩

lemma processLines_error_char (ctx : Ctx) (ls : List String) :
    ∀ st e, processLines ctx ls st = .error e →
      e = "Invalid time value" ∧ ∃ l ∈ ls, rowOutcome ctx l = .invalidDate := by
  induction ls with
  | nil => intro st e h; exact absurd h (by simp [processLines])
  | cons l t ih =>
    intro st e h
    cases ho : rowOutcome ctx l with
    | skip =>
      rw [processLines, ho] at h
      obtain ⟨he, l', hl', hro⟩ := ih st e h
      exact ⟨he, l', List.mem_cons_of_mem _ hl', hro⟩
    | invalidDate =>
      rw [processLines, ho] at h
      have he : e = "Invalid time value" := by
        cases h; rfl
      exact ⟨he, l, List.mem_cons_self l t, ho⟩
    | accept r =>
      rw [processLines, ho] at h
      obtain ⟨he, l', hl', hro⟩ := ih _ e h
      exact ⟨he, l', List.mem_cons_of_mem _ hl', hro⟩


/-- C10 counterexample: `parseSheetData` is not total.  A row whose date
field matches the ISO pattern but is not a valid calendar date produces an
Invalid Date object, which passes the null check and makes `toISOString`
throw, so this input makes `parseSheetData` throw instead of returning a
list. -/
theorem parseSheetData_throw_counterexample :
    parseSheetData
        "Filial,To\x27lov sanasi,6 mln,Invoice,Xodim\nToshkent,2024-99-99,1,0,Alice" 739281
      = Except.error "Invalid time value" := rfl

/-- C10 (amended): `parseSheetData` returns a list without throwing on
every input except those containing a data row that passes all row filters
and whose date field matches a date pattern while denoting an invalid
calendar date; such a row throws a `RangeError` from `toISOString`.  Inputs
with fewer than two lines yield the empty list, and every other malformed
row is silently excluded. -/
theorem parseSheetData_total_amended :
    (∀ csv t, (linesOf csv).length < 2 → parseSheetData csv t = .ok [])
    ∧ (∀ csv t, (∀ l ∈ dataLines csv, rowOutcome (mkCtx csv t) l ≠ .invalidDate) →
        ∃ out, parseSheetData csv t = .ok out)
    ∧ (∀ csv t e, parseSheetData csv t = .error e →
        e = "Invalid time value"
          ∧ ∃ l ∈ dataLines csv, rowOutcome (mkCtx csv t) l = .invalidDate) := by
  refine ⟨?_, ?_, ?_⟩
  · intro csv t h
    simp [parseSheetData, h]
  · intro csv t h
    rw [parseSheetData]
    split_ifs
    · exact ⟨[], rfl⟩
    · obtain ⟨st', hst'⟩ := processLines_ok_of_no_invalid (mkCtx csv t) ((linesOf csv).drop 1) h []
      rw [hst']
      exact ⟨st'.map Prod.snd, rfl⟩
  · intro csv t e h
    rw [parseSheetData] at h
    split_ifs at h
    cases hp : processLines (mkCtx csv t) ((linesOf csv).drop 1) [] with
    | ok st => rw [hp] at h; exact absurd h (by simp)
    | error e' =>
      rw [hp] at h
      have hee : e' = e := by cases h; rfl
      subst hee
      exact processLines_error_char (mkCtx csv t) _ [] e' hp

/-- Witness for C10: the short-input rule applied to a one-line input. -/
theorem parseSheetData_total_amended_witness :
    (linesOf "x").length < 2 ∧ parseSheetData "x" 0 = .ok [] :=
  ⟨by decide, parseSheetData_total_amended.1 "x" 0 (by decide)⟩

lemma runFetchPipeline_n (o : FetchOutcome) (t now : Int) (st st' : CacheState)
    (res : Except String (List SalesEmployee)) (n : Nat)
    (h : runFetchPipeline o t now st = (st', res, n)) : n = 1 := by
  rw [runFetchPipeline] at h
  rcases hsf : singleFetch o with ⟨body, ferr⟩
  rw [hsf] at h
  cases body with
  | none => simp [Prod.ext_iff] at h; omega
  | some csv =>
    simp only at h
    split_ifs at h with htrim
    · cases hp : parseSheetData csv t with
      | ok emps => rw [hp] at h; simp [Prod.ext_iff] at h; omega
      | error m => rw [hp] at h; simp [Prod.ext_iff] at h; omega
    · simp [Prod.ext_iff] at h; omega

lemma runFetchPipeline_ok (o : FetchOutcome) (t now : Int) (st st' : CacheState)
    (l : List SalesEmployee) (n : Nat)
    (h : runFetchPipeline o t now st = (st', .ok l, n)) :
    st' = { cachedData := some l, lastFetchTime := now } ∧ n = 1 := by
  rw [runFetchPipeline] at h
  rcases hsf : singleFetch o with ⟨body, ferr⟩
  rw [hsf] at h
  cases body with
  | none => simp [Prod.ext_iff] at h
  | some csv =>
    simp only at h
    split_ifs at h with htrim
    · cases hp : parseSheetData csv t with
      | ok emps =>
        rw [hp] at h
        simp [Prod.ext_iff] at h
        obtain ⟨hst, hres, hn⟩ := h
        subst hres
        exact ⟨hst.symm, hn.symm⟩
      | error m => rw [hp] at h; simp [Prod.ext_iff] at h
    · simp [Prod.ext_iff] at h

lemma fetch_n_zero_iff (o : FetchOutcome) (t now : Int) (st st' : CacheState)
    (res : Except String (List SalesEmployee)) (n : Nat)
    (h : fetchGoogleSheetData o t now st = (st', res, n)) :
    (n = 0 ↔ ∃ d, st.cachedData = some d ∧ now - st.lastFetchTime < cacheDuration) := by
  rw [fetchGoogleSheetData] at h
  cases hc : st.cachedData with
  | some d =>
    rw [hc] at h
    split_ifs at h with hv
    · simp [Prod.ext_iff] at h
      constructor
      · intro _; exact ⟨d, rfl, hv⟩
      · intro _; omega
    · have hn := runFetchPipeline_n o t now st st' res n h
      constructor
      · intro h0; omega
      · rintro ⟨d', hd', hv'⟩
        cases hd'
        exact absurd hv' hv
  | none =>
    rw [hc] at h
    have hn := runFetchPipeline_n o t now st st' res n h
    constructor
    · intro h0; omega
    · rintro ⟨d', hd', _⟩
      cases hd'

/-- C2: after a successful cache-miss run stored at `now1`, a second call
within the 5-minute TTL returns the stored aggregate list with zero Fetcher
invocations and an unchanged cache cell (so the two calls invoke the
Fetcher exactly once), and in general a call skips the Fetcher exactly when
a valid cache entry exists; a successful miss stores its result with the
current timestamp. -/
theorem fetchGoogleSheetData_cache_ttl
    (o1 o2 : FetchOutcome) (t1 t2 now1 now2 : Int) (st0 st1 : CacheState)
    (l : List SalesEmployee)
    (h1 : fetchGoogleSheetData o1 t1 now1 st0 = (st1, .ok l, 1))
    (httl : now2 - now1 < cacheDuration) :
    st1.cachedData = some l ∧ st1.lastFetchTime = now1
    ∧ fetchGoogleSheetData o2 t2 now2 st1 = (st1, .ok l, 0)
    ∧ (∀ (o : FetchOutcome) (t now : Int) (st st' : CacheState)
        (res : Except String (List SalesEmployee)) (n : Nat),
        fetchGoogleSheetData o t now st = (st', res, n) →
        (n = 0 ↔ ∃ d, st.cachedData = some d ∧ now - st.lastFetchTime < cacheDuration)) := by
  have hst1 : st1 = { cachedData := some l, lastFetchTime := now1 } := by
    rw [fetchGoogleSheetData] at h1
    cases hc : st0.cachedData with
    | some d =>
      rw [hc] at h1
      split_ifs at h1 with hv
      · simp [Prod.ext_iff] at h1
      · exact (runFetchPipeline_ok o1 t1 now1 st0 st1 l 1 h1).1
    | none =>
      rw [hc] at h1
      exact (runFetchPipeline_ok o1 t1 now1 st0 st1 l 1 h1).1
  subst hst1
  refine ⟨rfl, rfl, ?_, fun o t now st st' res n h => fetch_n_zero_iff o t now st st' res n h⟩
  rw [fetchGoogleSheetData]
  simp only
  rw [if_pos httl]

/-- Witness for C2: a concrete first call on an empty cache stores its
result, and a second call 1000 milliseconds later is a pure cache hit. -/
theorem fetchGoogleSheetData_cache_ttl_witness :
    fetchGoogleSheetData ⟨some "x\ny", "200", none, "0"⟩ 0 1000 ⟨none, 0⟩
        = (⟨some [], 1000⟩, .ok [], 1)
    ∧ ((2000 : Int) - 1000 < cacheDuration)
    ∧ (⟨some [], 1000⟩ : CacheState).cachedData = some []
      ∧ (⟨some [], 1000⟩ : CacheState).lastFetchTime = 1000
      ∧ fetchGoogleSheetData ⟨some "x\ny", "404", none, "0"⟩ 0 2000 ⟨some [], 1000⟩
          = (⟨some [], 1000⟩, .ok [], 0)
      ∧ (∀ (o : FetchOutcome) (t now : Int) (st st' : CacheState)
          (res : Except String (List SalesEmployee)) (n : Nat),
          fetchGoogleSheetData o t now st = (st', res, n) →
          (n = 0 ↔ ∃ d, st.cachedData = some d ∧ now - st.lastFetchTime < cacheDuration)) :=
  ⟨rfl, by decide,
    fetchGoogleSheetData_cache_ttl ⟨some "x\ny", "200", none, "0"⟩
      ⟨some "x\ny", "404", none, "0"⟩ 0 0 1000 2000 ⟨none, 0⟩ ⟨some [], 1000⟩ []
      rfl (by decide)⟩

lemma fetchLoop_char (t : Int) :
    ∀ (regions : List RegionOutcome) (emps : List Employee2) (errs : List String),
      fetchLoop t regions emps errs
        = (emps ++ regions.bind (regionRecords t),
           errs ++ regions.filterMap (regionFailMsg t)) := by
  intro regions
  induction regions with
  | nil => intro emps errs; simp [fetchLoop]
  | cons r rest ih =>
    intro emps errs
    rw [fetchLoop]
    rcases hef : endpointFetch r with ⟨body, ferr⟩
    cases body with
    | some csv =>
      by_cases htrim : jsTrim csv = ""
      · simp only [hef, htrim, ne_eq, not_true_eq_false, if_false, ih]
        simp [regionRecords, regionFailMsg, hef, htrim]
      · cases hp : parseSheetData2 csv r.name t with
        | ok ds => simp [ih, regionRecords, regionFailMsg, hef, htrim, hp]
        | error m => simp [ih, regionRecords, regionFailMsg, hef, htrim, hp]
    | none =>
      simp [ih, regionRecords, regionFailMsg, hef]

lemma infix_append_right_of {α : Type} (A : List α) {l B : List α} (h : l <:+: B) :
    l <:+: A ++ B := by
  obtain ⟨s, u, hsu⟩ := h
  exact ⟨A ++ s, u, by rw [← hsu]; simp⟩

lemma infix_append_left_of {α : Type} (C : List α) {l B : List α} (h : l <:+: B) :
    l <:+: B ++ C := by
  obtain ⟨s, u, hsu⟩ := h
  exact ⟨s, u ++ C, by rw [← hsu]; simp⟩

lemma listContains_iff (p : List Char) :
    ∀ h : List Char, (listContains p h = true ↔ p <:+: h) := by
  intro h
  induction h with
  | nil => simp [listContains, List.isEmpty_iff]
  | cons c t ih =>
    rw [listContains]
    simp only [Bool.or_eq_true, List.isPrefixOf_iff_prefix, ih]
    exact (List.infix_cons_iff).symm

lemma mem_infix_joinNl (m : String) : ∀ (errs : List String), m ∈ errs →
    m.data <:+: (joinNl errs).data := by
  intro errs
  induction errs with
  | nil => intro hm; cases hm
  | cons e rest ih =>
    intro hm
    cases rest with
    | nil =>
      have hme : m = e := by simpa using hm
      subst hme
      exact List.infix_refl m.data
    | cons e2 rest2 =>
      have hd : (joinNl (e :: e2 :: rest2)).data
          = e.data ++ ('\n' :: (joinNl (e2 :: rest2)).data) := by
        show (e ++ "\n" ++ joinNl (e2 :: rest2)).data = _
        simp [String.data_append]
      rw [hd]
      rcases List.mem_cons.mp hm with hme | hm'
      · subst hme
        exact infix_append_left_of _ (List.infix_refl m.data)
      · exact infix_append_right_of e.data (infix_append_right_of ['\n'] (ih hm'))

/-- C3: for every list of configured sources, a source whose endpoints all
fail is marked failed with a recorded reason while the remaining sources
are still fetched and aggregated (the successful result is the
concatenation of every region's records), and the run throws the
`NoDataAvailable` diagnostic — whose message contains every per-source
failure reason — exactly when no source yields any parsable record. -/
theorem fetchAllRegions_partial_failure (regions : List RegionOutcome) (t : Int) :
    (regions.bind (regionRecords t) ≠ [] →
      fetchAllRegions regions t = .ok (regions.bind (regionRecords t)))
    ∧ (regions.bind (regionRecords t) = [] →
      fetchAllRegions regions t = .error (noDataMsg (regions.filterMap (regionFailMsg t))))
    ∧ (∀ r ∈ regions, r.direct = none → r.alt = none →
        regionRecords t r = []
          ∧ regionFailMsg t r = some ("No CSV data received for " ++ r.name ++ ". "
              ++ ("Both direct fetch (" ++ r.directStatus ++ ") and alternative URL ("
                ++ r.altStatus ++ ") failed")))
    ∧ (∀ e, fetchAllRegions regions t = .error e →
        ∀ m ∈ regions.filterMap (regionFailMsg t), jsIncludes e m = true) := by
  have hloop := fetchLoop_char t regions [] []
  refine ⟨?_, ?_, ?_, ?_⟩
  · intro hne
    rw [fetchAllRegions, hloop]
    simp only [List.nil_append]
    rw [if_neg (fun h => hne (List.length_eq_zero.mp h))]
  · intro heq
    rw [fetchAllRegions, hloop]
    simp only [List.nil_append]
    rw [if_pos (by simp [heq])]
  · intro r hr hd ha
    constructor
    · simp [regionRecords, endpointFetch, hd, ha]
    · simp [regionFailMsg, endpointFetch, hd, ha]
  · intro e he m hm
    rw [fetchAllRegions, hloop] at he
    simp only [List.nil_append] at he
    by_cases hz : regions.bind (regionRecords t) = []
    · rw [if_pos (by simp [hz])] at he
      have he' : e = noDataMsg (regions.filterMap (regionFailMsg t)) := by
        cases he; rfl
      subst he'
      rw [jsIncludes, listContains_iff]
      have hne : ¬((regions.filterMap (regionFailMsg t)).isEmpty = true) := by
        intro hemp
        exact List.ne_nil_of_mem hm (by simpa using hemp)
      have hjoin := mem_infix_joinNl m _ hm
      rw [noDataMsg, if_neg hne]
      simp only [String.data_append]
      exact infix_append_left_of _ (infix_append_right_of _ (infix_append_right_of _ hjoin))
    · rw [if_neg (fun h => hz (List.length_eq_zero.mp h))] at he
      exact Except.noConfusion he

/-- Witness for C3: one region fails both endpoints, the other parses one
row; the run succeeds with exactly the surviving region's record. -/
theorem fetchAllRegions_partial_failure_witness :
    ([⟨"Andijon", none, "404", none, "500"⟩,
      ⟨"Samarqand", some "junk\nName,Date,Shartnoma,Invoice\nAlice,2024-01-31,6000000,10", "200", none, "0"⟩]
        : List RegionOutcome).bind (regionRecords 739281) ≠ []
    ∧ fetchAllRegions
        [⟨"Andijon", none, "404", none, "500"⟩,
         ⟨"Samarqand", some "junk\nName,Date,Shartnoma,Invoice\nAlice,2024-01-31,6000000,10", "200", none, "0"⟩]
        739281
      = .ok (([⟨"Andijon", none, "404", none, "500"⟩,
          ⟨"Samarqand", some "junk\nName,Date,Shartnoma,Invoice\nAlice,2024-01-31,6000000,10", "200", none, "0"⟩]
            : List RegionOutcome).bind (regionRecords 739281)) :=
  ⟨by decide,
    (fetchAllRegions_partial_failure
      [⟨"Andijon", none, "404", none, "500"⟩,
       ⟨"Samarqand", some "junk\nName,Date,Shartnoma,Invoice\nAlice,2024-01-31,6000000,10", "200", none, "0"⟩]
      739281).1 (by decide)⟩

lemma sumWhere_cons (k : String) (p : Int → Prop) [DecidablePred p] (r : RowInfo)
    (rest : List RowInfo) :
    sumWhere k p (r :: rest)
      = if rowKey r = k ∧ p r.day then r.saleAmount + sumWhere k p rest
        else sumWhere k p rest := rfl

lemma sumWhere_init (k : String) (p : Int → Prop) [DecidablePred p]
    (rows : List RowInfo) (i : Int) :
    rows.foldr (fun r acc => if rowKey r = k ∧ p r.day then r.saleAmount + acc else acc) i
      = sumWhere k p rows + i := by
  induction rows with
  | nil => simp [sumWhere]
  | cons r rest ih =>
    rw [List.foldr_cons, ih, sumWhere_cons]
    split_ifs with h
    · ring
    · rfl

lemma sumWhere_append_one (k : String) (p : Int → Prop) [DecidablePred p]
    (rows : List RowInfo) (r : RowInfo) :
    sumWhere k p (rows ++ [r])
      = sumWhere k p rows + (if rowKey r = k ∧ p r.day then r.saleAmount else 0) := by
  rw [sumWhere, List.foldr_append]
  show rows.foldr _ (if rowKey r = k ∧ p r.day then r.saleAmount + 0 else 0) = _
  rw [sumWhere_init]
  split_ifs with h
  · ring
  · ring

lemma sumWhere_zero_of_no_key (k : String) (p : Int → Prop) [DecidablePred p]
    (rows : List RowInfo) (h : ∀ r ∈ rows, rowKey r ≠ k) :
    sumWhere k p rows = 0 := by
  induction rows with
  | nil => rfl
  | cons r rest ih =>
    rw [sumWhere_cons, if_neg (fun hc => h r (List.mem_cons_self r rest) hc.1)]
    exact ih (fun r' hr' => h r' (List.mem_cons_of_mem _ hr'))

lemma sumWhere_nonneg (k : String) (p : Int → Prop) [DecidablePred p]
    (rows : List RowInfo) (hpos : ∀ r ∈ rows, 0 < r.saleAmount) :
    0 ≤ sumWhere k p rows := by
  induction rows with
  | nil => exact le_refl 0
  | cons r rest ih =>
    have hr := hpos r (List.mem_cons_self r rest)
    have ih' := ih (fun r' hr' => hpos r' (List.mem_cons_of_mem _ hr'))
    rw [sumWhere_cons]
    split_ifs with h
    · omega
    · exact ih'

lemma sumWhere_mono (k : String) (p q : Int → Prop) [DecidablePred p] [DecidablePred q]
    (rows : List RowInfo) (hpq : ∀ d, p d → q d)
    (hpos : ∀ r ∈ rows, 0 < r.saleAmount) :
    sumWhere k p rows ≤ sumWhere k q rows := by
  induction rows with
  | nil => exact le_refl 0
  | cons r rest ih =>
    have hr := hpos r (List.mem_cons_self r rest)
    have ih' := ih (fun r' hr' => hpos r' (List.mem_cons_of_mem _ hr'))
    rw [sumWhere_cons, sumWhere_cons]
    split_ifs with h1 h2
    · omega
    · exact absurd ⟨h1.1, hpq _ h1.2⟩ h2
    · omega
    · exact ih'

lemma sumWhere_member (k : String) (p : Int → Prop) [DecidablePred p]
    (rows : List RowInfo) (r : RowInfo) (hr : r ∈ rows) (hk : rowKey r = k)
    (hp : p r.day) (hpos : ∀ r' ∈ rows, 0 < r'.saleAmount) :
    r.saleAmount ≤ sumWhere k p rows := by
  induction rows with
  | nil => cases hr
  | cons a rest ih =>
    have hpos' : ∀ r' ∈ rest, 0 < r'.saleAmount :=
      fun r' hr' => hpos r' (List.mem_cons_of_mem _ hr')
    rw [sumWhere_cons]
    rcases List.mem_cons.mp hr with rfl | hr'
    · rw [if_pos ⟨hk, hp⟩]
      have := sumWhere_nonneg k p rest hpos'
      omega
    · have hle := ih hr' hpos'
      have ha := hpos a (List.mem_cons_self a rest)
      split_ifs with h
      · omega
      · exact hle

lemma rowOutcomeDate_accept (ctx : Ctx) (fields : List String) (name branch : String)
    (sa a i i3 : Int) (r : RowInfo)
    (h : rowOutcomeDate ctx fields name branch sa a i i3 = .accept r) :
    r.saleAmount = sa := by
  rw [rowOutcomeDate] at h
  split at h
  · exact RowOutcome.noConfusion h
  · exact RowOutcome.noConfusion h
  · injection h with h'
    subst h'
    rfl

lemma rowOutcomeAmount_accept_pos (ctx : Ctx) (fields : List String)
    (name branch : String) (r : RowInfo)
    (h : rowOutcomeAmount ctx fields name branch = .accept r) :
    0 < r.saleAmount := by
  simp only [rowOutcomeAmount] at h
  split_ifs at h <;> first
    | exact RowOutcome.noConfusion h
    | (have hsa := rowOutcomeDate_accept _ _ _ _ _ _ _ _ _ h; omega)

lemma rowOutcome_accept_pos (ctx : Ctx) (line : String) (r : RowInfo)
    (h : rowOutcome ctx line = .accept r) : 0 < r.saleAmount := by
  rw [rowOutcome] at h
  split_ifs at h
  rw [rowOutcomeFields] at h
  split_ifs at h
  rw [rowOutcomeNamed] at h
  split_ifs at h
  exact rowOutcomeAmount_accept_pos _ _ _ _ _ h

lemma acceptedOf_pos (ctx : Ctx) (ls : List String) :
    ∀ r ∈ acceptedOf ctx ls, 0 < r.saleAmount := by
  intro r hr
  obtain ⟨l, hl, hfl⟩ := List.mem_filterMap.mp hr
  cases ho : rowOutcome ctx l with
  | skip => rw [ho] at hfl; cases hfl
  | invalidDate => rw [ho] at hfl; cases hfl
  | accept r' =>
    rw [ho] at hfl
    cases hfl
    exact rowOutcome_accept_pos ctx l r ho

lemma acceptedOf_cons_skip (ctx : Ctx) (l : String) (ls : List String)
    (h : rowOutcome ctx l = .skip) :
    acceptedOf ctx (l :: ls) = acceptedOf ctx ls := by
  simp [acceptedOf, h]

lemma acceptedOf_cons_accept (ctx : Ctx) (l : String) (ls : List String) (r : RowInfo)
    (h : rowOutcome ctx l = .accept r) :
    acceptedOf ctx (l :: ls) = r :: acceptedOf ctx ls := by
  simp [acceptedOf, h]

lemma hasKey_iff (st : AggState) (k : String) :
    hasKey st k = true ↔ ∃ pe ∈ st, pe.1 = k := by
  simp [hasKey, List.any_eq_true]

lemma empKey_accumulate (t : Int) (r : RowInfo) (e : SalesEmployee) :
    empKey (accumulate t r e) = empKey e := rfl

lemma empKey_fresh (r : RowInfo) : empKey (freshEmployee r) = rowKey r := rfl

lemma applyRow_inv (t : Int) (r : RowInfo) (rows : List RowInfo) (st : AggState)
    (hInv : InvS t rows st) : InvS t (rows ++ [r]) (applyRow t r st) := by
  obtain ⟨hrec, hown⟩ := hInv
  rw [applyRow]
  by_cases hk : hasKey st (rowKey r) = true
  · rw [if_pos hk]
    constructor
    · intro pe' hpe'
      obtain ⟨pe, hpe, hfpe⟩ := List.mem_map.mp hpe'
      obtain ⟨hkey, ht0, hw, hm, hs, hy⟩ := hrec pe hpe
      by_cases hpek : pe.1 = rowKey r
      · rw [if_pos hpek] at hfpe
        subst hfpe
        have hkr : rowKey r = pe.1 := hpek.symm
        refine ⟨by rw [empKey_accumulate]; exact hkey, ?_, ?_, ?_, ?_, ?_⟩
        all_goals simp [accumulate, sumWhere_append_one, hkr, ht0, hw, hm, hs, hy]
      · rw [if_neg hpek] at hfpe
        subst hfpe
        have hne : ¬(rowKey r = pe.1 ∧ r.day = t) := fun hc => hpek hc.1.symm
        refine ⟨hkey, ?_, ?_, ?_, ?_, ?_⟩ <;>
          (rw [sumWhere_append_one, if_neg (fun hc => hpek hc.1.symm), add_zero]) <;>
          first
            | exact ht0
            | exact hw
            | exact hm
            | exact hs
            | exact hy
    · intro r' hr'
      rcases List.mem_append.mp hr' with hr'' | hr''
      · obtain ⟨pe, hpe, hpek⟩ := hown r' hr''
        refine ⟨if pe.1 = rowKey r then (pe.1, accumulate t r pe.2) else pe,
          List.mem_map_of_mem _ hpe, ?_⟩
        split_ifs <;> exact hpek
      · have hr3 : r' = r := by simpa using hr''
        rw [hr3]
        obtain ⟨pe, hpe, hpek⟩ := (hasKey_iff st (rowKey r)).mp hk
        refine ⟨if pe.1 = rowKey r then (pe.1, accumulate t r pe.2) else pe,
          List.mem_map_of_mem _ hpe, ?_⟩
        split_ifs
        all_goals exact hpek
  · rw [if_neg hk]
    have hnone : ∀ pe ∈ st, pe.1 ≠ rowKey r := by
      intro pe hpe hcon
      exact hk ((hasKey_iff st (rowKey r)).mpr ⟨pe, hpe, hcon⟩)
    have hnorow : ∀ r' ∈ rows, rowKey r' ≠ rowKey r := by
      intro r' hr' hcon
      obtain ⟨pe, hpe, hpek⟩ := hown r' hr'
      exact hnone pe hpe (hpek.trans hcon)
    constructor
    · intro pe' hpe'
      rcases List.mem_append.mp hpe' with hpe | hpe
      · obtain ⟨hkey, ht0, hw, hm, hs, hy⟩ := hrec pe' hpe
        refine ⟨hkey, ?_, ?_, ?_, ?_, ?_⟩ <;>
          (rw [sumWhere_append_one,
            if_neg (fun hc => hnone pe' hpe (hc.1.symm)), add_zero]) <;>
          first
            | exact ht0
            | exact hw
            | exact hm
            | exact hs
            | exact hy
      · have hpe2 : pe' = (rowKey r, accumulate t r (freshEmployee r)) := by
          simpa using hpe
        subst hpe2
        have hzero : ∀ (p : Int → Prop) (inst : DecidablePred p),
            sumWhere (rowKey r) p rows = 0 :=
          fun p inst => sumWhere_zero_of_no_key _ _ _ hnorow
        refine ⟨by rw [empKey_accumulate, empKey_fresh], ?_, ?_, ?_, ?_, ?_⟩
        all_goals simp [accumulate, freshEmployee, sumWhere_append_one, hzero]
    · intro r' hr'
      rcases List.mem_append.mp hr' with hr'' | hr''
      · obtain ⟨pe, hpe, hpek⟩ := hown r' hr''
        exact ⟨pe, List.mem_append_left _ hpe, hpek⟩
      · have hr3 : r' = r := by simpa using hr''
        rw [hr3]
        exact ⟨(rowKey r, accumulate t r (freshEmployee r)),
          List.mem_append_right _ (List.mem_singleton_self _), rfl⟩

lemma processLines_inv (ctx : Ctx) :
    ∀ (ls : List String) (rows : List RowInfo) (st st' : AggState),
      InvS ctx.todayDay rows st →
      processLines ctx ls st = .ok st' →
      InvS ctx.todayDay (rows ++ acceptedOf ctx ls) st' := by
  intro ls
  induction ls with
  | nil =>
    intro rows st st' hInv h
    have hst : st = st' := by cases h; rfl
    subst hst
    simpa [acceptedOf] using hInv
  | cons l ls ih =>
    intro rows st st' hInv h
    cases ho : rowOutcome ctx l with
    | skip =>
      rw [processLines, ho] at h
      have hres := ih rows st st' hInv h
      rwa [acceptedOf_cons_skip ctx l ls ho]
    | invalidDate =>
      rw [processLines, ho] at h
      exact Except.noConfusion h
    | accept r =>
      rw [processLines, ho] at h
      have hstep := applyRow_inv ctx.todayDay r rows st hInv
      have hres := ih (rows ++ [r]) (applyRow ctx.todayDay r st) st' hstep h
      rw [acceptedOf_cons_accept ctx l ls r ho]
      simpa [List.append_assoc] using hres

lemma InvS_nil (t : Int) : InvS t [] [] :=
  ⟨fun pe hpe => absurd hpe (List.not_mem_nil pe),
   fun r hr => absurd hr (List.not_mem_nil r)⟩

/-- C1: in every run of `parseSheetData` that returns a record list, (i) the
five rolling-window totals of every output record nest (`today ≤ week ≤
month ≤ sixMonths ≤ year`, each window summing a superset of the shorter
window's contributions, all of them positive), and (ii) every aggregated row
whose date lies in `[today-365d, today]` is counted in its owning record's
`year` total: that record exists, answers to the row's key, its `year` total
is exactly the sum of the year-window contributions with that key, and the
row's sale amount is bounded by it. -/
theorem parseSheetData_rolling_windows (csv : String) (t : Int)
    (out : List SalesEmployee) (h : parseSheetData csv t = Except.ok out) :
    (∀ e ∈ out, e.today ≤ e.week ∧ e.week ≤ e.month
      ∧ e.month ≤ e.sixMonths ∧ e.sixMonths ≤ e.year)
    ∧ (∀ r ∈ acceptedOf (mkCtx csv t) (dataLines csv),
        t - 365 ≤ r.day → r.day ≤ t →
        ∃ e ∈ out, empKey e = rowKey r ∧ r.saleAmount ≤ e.year
          ∧ e.year = sumWhere (rowKey r) (fun d => t - 365 ≤ d)
              (acceptedOf (mkCtx csv t) (dataLines csv))) := by
  rw [parseSheetData] at h
  split_ifs at h with hlen
  · have hout : out = [] := by cases h; rfl
    subst hout
    constructor
    · intro e he; cases he
    · intro r hr
      have hdl : dataLines csv = [] := by
        rw [dataLines]
        exact List.drop_eq_nil_of_le (by omega)
      rw [hdl] at hr
      cases hr
  · cases hp : processLines (mkCtx csv t) ((linesOf csv).drop 1) [] with
    | error e =>
      rw [hp] at h
      exact Except.noConfusion h
    | ok st =>
      rw [hp] at h
      have hout : out = st.map Prod.snd := by cases h; rfl
      subst hout
      have hinv := processLines_inv (mkCtx csv t) ((linesOf csv).drop 1) [] [] st
        (InvS_nil _) hp
      simp only [List.nil_append] at hinv
      obtain ⟨hrec, hown⟩ := hinv
      have hpos : ∀ r ∈ acceptedOf (mkCtx csv t) ((linesOf csv).drop 1),
          0 < r.saleAmount := acceptedOf_pos (mkCtx csv t) ((linesOf csv).drop 1)
      constructor
      · intro e he
        obtain ⟨pe, hpe, hpee⟩ := List.mem_map.mp he
        obtain ⟨hkey, ht0, hw, hm, hs, hy⟩ := hrec pe hpe
        subst hpee
        refine ⟨?_, ?_, ?_, ?_⟩
        · rw [ht0, hw]
          exact sumWhere_mono _ _ _ _ (fun d hd => by omega) hpos
        · rw [hw, hm]
          exact sumWhere_mono _ _ _ _ (fun d hd => by omega) hpos
        · rw [hm, hs]
          exact sumWhere_mono _ _ _ _ (fun d hd => by omega) hpos
        · rw [hs, hy]
          exact sumWhere_mono _ _ _ _ (fun d hd => by omega) hpos
      · intro r hr h365 hup
        obtain ⟨pe, hpe, hpek⟩ := hown r hr
        obtain ⟨hkey, ht0, hw, hm, hs, hy⟩ := hrec pe hpe
        refine ⟨pe.2, List.mem_map_of_mem _ hpe, by rw [← hkey, hpek], ?_, ?_⟩
        · rw [hy, hpek]
          exact sumWhere_member _ _ _ r hr rfl h365 hpos
        · rw [hy, hpek]
          rfl

/-- Witness for C1: a concrete run with one accepted row dated on the run's
anchor day. -/
theorem parseSheetData_rolling_windows_witness :
    parseSheetData "Filial,To\x27lov sanasi,6 mln,Invoice,Xodim\nToshkent,2024-01-31,1,0,Alice" 739281
      = Except.ok [{ id := "alice-toshkent", name := "Alice", branch := "Toshkent", today := 6000000, week := 6000000, month := 6000000, sixMonths := 6000000, year := 6000000, amount6mln := 1, invoice := 0, invoice3000 := 0 }]
    ∧ ((∀ e ∈ [({ id := "alice-toshkent", name := "Alice", branch := "Toshkent", today := 6000000, week := 6000000, month := 6000000, sixMonths := 6000000, year := 6000000, amount6mln := 1, invoice := 0, invoice3000 := 0 } : SalesEmployee)],
        e.today ≤ e.week ∧ e.week ≤ e.month ∧ e.month ≤ e.sixMonths ∧ e.sixMonths ≤ e.year)
      ∧ (∀ r ∈ acceptedOf (mkCtx "Filial,To\x27lov sanasi,6 mln,Invoice,Xodim\nToshkent,2024-01-31,1,0,Alice" 739281) (dataLines "Filial,To\x27lov sanasi,6 mln,Invoice,Xodim\nToshkent,2024-01-31,1,0,Alice"),
          (739281 : Int) - 365 ≤ r.day → r.day ≤ 739281 →
          ∃ e ∈ [({ id := "alice-toshkent", name := "Alice", branch := "Toshkent", today := 6000000, week := 6000000, month := 6000000, sixMonths := 6000000, year := 6000000, amount6mln := 1, invoice := 0, invoice3000 := 0 } : SalesEmployee)],
            empKey e = rowKey r ∧ r.saleAmount ≤ e.year
              ∧ e.year = sumWhere (rowKey r) (fun d => (739281 : Int) - 365 ≤ d)
                  (acceptedOf (mkCtx "Filial,To\x27lov sanasi,6 mln,Invoice,Xodim\nToshkent,2024-01-31,1,0,Alice" 739281) (dataLines "Filial,To\x27lov sanasi,6 mln,Invoice,Xodim\nToshkent,2024-01-31,1,0,Alice")))) :=
  ⟨rfl, parseSheetData_rolling_windows "Filial,To\x27lov sanasi,6 mln,Invoice,Xodim\nToshkent,2024-01-31,1,0,Alice" 739281
    [{ id := "alice-toshkent", name := "Alice", branch := "Toshkent", today := 6000000, week := 6000000, month := 6000000, sixMonths := 6000000, year := 6000000, amount6mln := 1, invoice := 0, invoice3000 := 0 }] rfl⟩

lemma rowOutcomeDate_accept_fields (ctx : Ctx) (fields : List String)
    (name branch : String) (sa a i i3 : Int) (r : RowInfo)
    (h : rowOutcomeDate ctx fields name branch sa a i i3 = .accept r) :
    r.saleAmount = sa ∧ r.amount6mln = a ∧ r.invoice = i ∧ r.invoice3000 = i3 := by
  rw [rowOutcomeDate] at h
  split at h
  · exact RowOutcome.noConfusion h
  · exact RowOutcome.noConfusion h
  · injection h with h'
    subst h'
    exact ⟨rfl, rfl, rfl, rfl⟩

lemma rowOutcomeAmount_accept_metrics (ctx : Ctx) (fields : List String)
    (name branch : String) (r : RowInfo)
    (h : rowOutcomeAmount ctx fields name branch = .accept r) :
    r.amount6mln = safeParseInt (metricStr ctx.amount6mlnIdx fields)
    ∧ r.invoice = safeParseInt (metricStr ctx.invoiceIdx fields)
    ∧ r.invoice3000 = safeParseInt (metricStr ctx.invoice3000Idx fields)
    ∧ r.saleAmount = (if 0 < r.amount6mln then 6000000 * r.amount6mln else 0) + r.invoice := by
  simp only [rowOutcomeAmount] at h
  by_cases h1 : 0 < safeParseInt (metricStr ctx.amount6mlnIdx fields)
  · rw [if_pos h1] at h
    split_ifs at h with h2
    obtain ⟨hsa, ha, hi, hi3⟩ := rowOutcomeDate_accept_fields _ _ _ _ _ _ _ _ _ h
    refine ⟨ha, hi, hi3, ?_⟩
    rw [hsa, ha, hi, if_pos h1]
  · rw [if_neg h1] at h
    split_ifs at h with h2
    obtain ⟨hsa, ha, hi, hi3⟩ := rowOutcomeDate_accept_fields _ _ _ _ _ _ _ _ _ h
    refine ⟨ha, hi, hi3, ?_⟩
    rw [hsa, ha, hi, if_neg h1]

lemma rowOutcome_accept_metrics (ctx : Ctx) (line : String) (r : RowInfo)
    (h : rowOutcome ctx line = .accept r) :
    r.amount6mln = safeParseInt (metricStr ctx.amount6mlnIdx (parseCSVLine line))
    ∧ r.invoice = safeParseInt (metricStr ctx.invoiceIdx (parseCSVLine line))
    ∧ r.invoice3000 = safeParseInt (metricStr ctx.invoice3000Idx (parseCSVLine line))
    ∧ r.saleAmount = (if 0 < r.amount6mln then 6000000 * r.amount6mln else 0) + r.invoice := by
  rw [rowOutcome] at h
  split_ifs at h
  rw [rowOutcomeFields] at h
  split_ifs at h
  rw [rowOutcomeNamed] at h
  split_ifs at h
  exact rowOutcomeAmount_accept_metrics _ _ _ _ _ h

lemma metricStr_neg (fields : List String) : metricStr (-1) fields = "0" := by
  simp [metricStr]

lemma applyRow_i3000_zero (t : Int) (r : RowInfo) (st : AggState)
    (hr : r.invoice3000 = 0) (hst : ∀ pe ∈ st, pe.2.invoice3000 = 0) :
    ∀ pe ∈ applyRow t r st, pe.2.invoice3000 = 0 := by
  intro pe hpe
  rw [applyRow] at hpe
  split_ifs at hpe
  · obtain ⟨q, hq, hfq⟩ := List.mem_map.mp hpe
    by_cases hqk : q.1 = rowKey r
    · rw [if_pos hqk] at hfq
      subst hfq
      simp [accumulate, hst q hq, hr]
    · rw [if_neg hqk] at hfq
      subst hfq
      exact hst q hq
  · rcases List.mem_append.mp hpe with hq | hq
    · exact hst pe hq
    · have hpe2 : pe = (rowKey r, accumulate t r (freshEmployee r)) := by simpa using hq
      rw [hpe2]
      simp [accumulate, freshEmployee, hr]

lemma processLines_i3000_zero (ctx : Ctx) (h3 : ctx.invoice3000Idx = -1) :
    ∀ (ls : List String) (st st' : AggState),
      (∀ pe ∈ st, pe.2.invoice3000 = 0) →
      processLines ctx ls st = .ok st' →
      ∀ pe ∈ st', pe.2.invoice3000 = 0 := by
  intro ls
  induction ls with
  | nil =>
    intro st st' hst h
    have : st = st' := by cases h; rfl
    subst this
    exact hst
  | cons l ls ih =>
    intro st st' hst h
    cases ho : rowOutcome ctx l with
    | skip =>
      rw [processLines, ho] at h
      exact ih st st' hst h
    | invalidDate =>
      rw [processLines, ho] at h
      exact Except.noConfusion h
    | accept r =>
      rw [processLines, ho] at h
      have hr : r.invoice3000 = 0 := by
        have hm := (rowOutcome_accept_metrics ctx l r ho).2.2.1
        rw [hm, h3, metricStr_neg]
        decide
      exact ih _ st' (applyRow_i3000_zero ctx.todayDay r st hr hst) h

/-- C9 counterexample: a run in which only the `$3000` metric column is
unresolved (the sheet's header names it `Bonus`, which no candidate
matches) does not skip the rows that depend on it: the data row carries the
value 7 in that column (field index 4), yet it is aggregated into a record
whose `$3000` metric is silently zeroed, rather than being skipped at the
row level. -/
theorem unresolved_metric_counterexample :
    (mkCtx "Filial,To\x27lov sanasi,6 mln,Invoice,Bonus,Xodim\nToshkent,2024-01-31,1,5,7,Alice" 739281).invoice3000Idx = -1
    ∧ parseCSVLine "Toshkent,2024-01-31,1,5,7,Alice"
        = ["Toshkent", "2024-01-31", "1", "5", "7", "Alice"]
    ∧ parseSheetData "Filial,To\x27lov sanasi,6 mln,Invoice,Bonus,Xodim\nToshkent,2024-01-31,1,5,7,Alice" 739281
        = Except.ok [{ id := "alice-toshkent", name := "Alice", branch := "Toshkent", today := 6000005, week := 6000005, month := 6000005, sixMonths := 6000005, year := 6000005, amount6mln := 1, invoice := 5, invoice3000 := 0 }] :=
  ⟨rfl, rfl, rfl⟩

/-- C9 (amended): a run never fails because a logical field is unresolved,
and a row is skipped for an unresolved field exactly when the field takes
part in row acceptance: with the branch column unresolved every row is
skipped, with the date column unresolved every row is skipped, and with
both sale-amount metric columns unresolved every row is skipped (the run
returns the empty list in each case); a single unresolved metric column
does not skip its dependent rows — the metric is read as 0 for every
accepted row, a row is dropped only through the usual non-positive
sale-amount filter (with the `6 mln` column unresolved the sale amount
degenerates to the invoice alone, with the invoice column unresolved to
the contract contribution alone), and a completed run with the `$3000`
column unresolved carries a zero `$3000` metric on every record. -/
theorem unresolved_fields_amended :
    (∀ csv t, (mkCtx csv t).filialIdx = -1 → parseSheetData csv t = .ok [])
    ∧ (∀ csv t, (mkCtx csv t).dateIdx = -1 → parseSheetData csv t = .ok [])
    ∧ (∀ csv t, (mkCtx csv t).amount6mlnIdx = -1 → (mkCtx csv t).invoiceIdx = -1 →
        parseSheetData csv t = .ok [])
    ∧ (∀ (ctx : Ctx) (line : String) (r : RowInfo), ctx.amount6mlnIdx = -1 →
        rowOutcome ctx line = .accept r → r.amount6mln = 0 ∧ r.saleAmount = r.invoice)
    ∧ (∀ (ctx : Ctx) (line : String) (r : RowInfo), ctx.invoiceIdx = -1 →
        rowOutcome ctx line = .accept r →
        r.invoice = 0 ∧ r.saleAmount = (if 0 < r.amount6mln then 6000000 * r.amount6mln else 0))
    ∧ (∀ (ctx : Ctx) (line : String) (r : RowInfo), ctx.invoice3000Idx = -1 →
        rowOutcome ctx line = .accept r → r.invoice3000 = 0)
    ∧ (∀ csv t out, (mkCtx csv t).invoice3000Idx = -1 →
        parseSheetData csv t = .ok out → ∀ e ∈ out, e.invoice3000 = 0) := by
  refine ⟨?_, ?_, ?_, ?_, ?_, ?_, ?_⟩
  · intro csv t h
    rw [parseSheetData]
    split_ifs
    · rfl
    · rw [processLines_all_skip _ _ (rowOutcome_skip_of_filial _ h)]
      rfl
  · intro csv t h
    rw [parseSheetData]
    split_ifs
    · rfl
    · rw [processLines_all_skip _ _ (rowOutcome_skip_of_date _ h)]
      rfl
  · intro csv t h6 hi
    rw [parseSheetData]
    split_ifs
    · rfl
    · rw [processLines_all_skip _ _ (rowOutcome_skip_of_metrics _ h6 hi)]
      rfl
  · intro ctx line r h6 hacc
    obtain ⟨ha, hi, hi3, hsa⟩ := rowOutcome_accept_metrics ctx line r hacc
    have ha0 : r.amount6mln = 0 := by
      rw [ha, h6, metricStr_neg]
      decide
    refine ⟨ha0, ?_⟩
    rw [hsa, ha0]
    simp
  · intro ctx line r hinv hacc
    obtain ⟨ha, hi, hi3, hsa⟩ := rowOutcome_accept_metrics ctx line r hacc
    have hi0 : r.invoice = 0 := by
      rw [hi, hinv, metricStr_neg]
      decide
    refine ⟨hi0, ?_⟩
    rw [hsa, hi0]
    simp
  · intro ctx line r h3 hacc
    have hi3 := (rowOutcome_accept_metrics ctx line r hacc).2.2.1
    rw [hi3, h3, metricStr_neg]
    decide
  · intro csv t out h3 hout
    rw [parseSheetData] at hout
    split_ifs at hout with hlen
    · have : out = [] := by cases hout; rfl
      subst this
      intro e he
      cases he
    · cases hp : processLines (mkCtx csv t) ((linesOf csv).drop 1) [] with
      | error e =>
        rw [hp] at hout
        exact Except.noConfusion hout
      | ok st =>
        rw [hp] at hout
        have hst : out = st.map Prod.snd := by cases hout; rfl
        subst hst
        have hzero := processLines_i3000_zero (mkCtx csv t) h3
          ((linesOf csv).drop 1) [] st (fun pe hpe => absurd hpe (List.not_mem_nil pe)) hp
        intro e he
        obtain ⟨pe, hpe, hpee⟩ := List.mem_map.mp he
        rw [← hpee]
        exact hzero pe hpe

/-- Witness for C9: the record-level zeroing applied to the counterexample
sheet, whose `$3000` column is unresolved. -/
theorem unresolved_fields_amended_witness :
    (mkCtx "Filial,To\x27lov sanasi,6 mln,Invoice,Bonus,Xodim\nToshkent,2024-01-31,1,5,7,Alice" 739281).invoice3000Idx = -1
    ∧ parseSheetData "Filial,To\x27lov sanasi,6 mln,Invoice,Bonus,Xodim\nToshkent,2024-01-31,1,5,7,Alice" 739281
        = Except.ok [{ id := "alice-toshkent", name := "Alice", branch := "Toshkent", today := 6000005, week := 6000005, month := 6000005, sixMonths := 6000005, year := 6000005, amount6mln := 1, invoice := 5, invoice3000 := 0 }]
    ∧ (∀ e ∈ [({ id := "alice-toshkent", name := "Alice", branch := "Toshkent", today := 6000005, week := 6000005, month := 6000005, sixMonths := 6000005, year := 6000005, amount6mln := 1, invoice := 5, invoice3000 := 0 } : SalesEmployee)],
        e.invoice3000 = 0) :=
  ⟨rfl, rfl,
    unresolved_fields_amended.2.2.2.2.2.2
      "Filial,To\x27lov sanasi,6 mln,Invoice,Bonus,Xodim\nToshkent,2024-01-31,1,5,7,Alice" 739281
      [{ id := "alice-toshkent", name := "Alice", branch := "Toshkent", today := 6000005, week := 6000005, month := 6000005, sixMonths := 6000005, year := 6000005, amount6mln := 1, invoice := 5, invoice3000 := 0 }]
      rfl rfl⟩
